import Mathlib

/-!
# Event-production loop of `Gen/P8ptcgen.cc`

A shallow embedding of `main` in `src/Gen/P8ptcgen.cc`: the final-state
selection loop (lines 110-124), the per-event loop body (lines 83-154), the
`for (iEvent = 0; iEvent < nEvent; ++iEvent)` loop (line 82) and the program
around it (lines 18-34, 70, 157-161).

The collaborators (Pythia, the particle gun, the HepMC converter and writer,
FastJet) are external.  Every call the program makes to one of them is recorded
as an `Action` in a trace, in program order; what the generator answers to the
successive `pythia.next()` calls is an input of the model (`Attempt`).

Momentum components are C++ `double`s that the program only copies, so they are
values of an arbitrary type `F`.  The counters `iEvent`, `iAbort`, `nEvent`,
`nAbort` are C++ `int`s modelled by `Int`: inside the loop
`iAbort <= iEvent + 1 <= nEvent`, so neither `++iEvent` nor `++iAbort` can
leave the range of `int` (see `eventLoop_counters`).
-/

namespace P8ptcgen

/-! ## Data model -/

/-- One entry `pythia.event[i]` of the generator's event record, reduced to the
accessors the program uses: `isFinal()`, `id()`, `px()`, `py()`, `pz()`, `e()`. -/
structure Particle (F : Type) where
  isFinal : Bool
  id : Int
  px : F
  py : F
  pz : F
  e : F
deriving DecidableEq

/-- The accessor `Particle::idAbs()`, the absolute value of the species id. -/
def Particle.idAbs {F : Type} (p : Particle F) : Int := |p.id|

/-- The value `fastjet::PseudoJet(px, py, pz, E)` built at lines 122-123. -/
structure PseudoJet (F : Type) where
  px : F
  py : F
  pz : F
  E : F
deriving DecidableEq

/-- What one call of `pythia.next()` yields: its return value, what
`pythia.info.atEndOfFile()` answers after it, and the content of
`pythia.event` after it. -/
structure Attempt (F : Type) where
  next : Bool
  atEndOfFile : Bool
  event : List (Particle F)

/-- The calls to collaborators and the messages on `cout` that the event loop
and the end of `main` make, in program order, together with the call
`pythia.init()`.  The reading of the settings (lines 54-67) and the set-up of the
jet interface, the particle gun and the jet definition (lines 72-78) are not
recorded. -/
inductive Action (F : Type) where
  /-- Line 70, `pythia.init()`, with the value it returned. -/
  | init (ok : Bool)
  /-- Line 83, `ptcgun.fillResonance(...)`. -/
  | fillResonance
  /-- Line 85, `ptcgun.fillParton(...)`. -/
  | fillParton
  /-- Line 86, `pythia.forceTimeShower(1, 2, scale)`. -/
  | forceTimeShower
  /-- Line 90, `pythia.next()`, with the value it returned. -/
  | next (ok : Bool)
  /-- Line 94, the message "Aborted since reached end of Les Houches Event File". -/
  | printEndOfFile
  /-- Line 100, the message "Event generation aborted prematurely, owing to error!". -/
  | printAborted
  /-- Line 107, `new HepMC3::GenEvent(...)`. -/
  | newGenEvent
  /-- Line 108, `ToHepMC.fill_next_event(pythia, hepmcevt)`. -/
  | fillNextEvent
  /-- Line 127, the message "Error: event with no final state particles". -/
  | printNoFinalState
  /-- Lines 133-137, `fastjet::ClusterSequence clustSeq(fjInputs, jetDef)` and the
  extraction of the sorted inclusive jets, with the inputs handed over. -/
  | clusterSequence (inputs : List (PseudoJet F))
  /-- Line 140, `fjInterface.writeJets(sortedJets)`. -/
  | writeJets
  /-- Line 141, `rootOutput.write_event(*hepmcevt)`. -/
  | writeEvent
  /-- Line 142, `delete hepmcevt`. -/
  | deleteGenEvent
  /-- Lines 146-153, the event listing, the junction listing and the two lines
  describing the jet definition and the strategy. -/
  | listEvent
  /-- Line 157, `rootOutput.close()`. -/
  | close
  /-- Line 158, `pythia.stat()`. -/
  | stat
deriving DecidableEq

/-- The variables that live across iterations of the event loop: the loop
counter, the abort counter, the vector `fjInputs`, the number of
`pythia.next()` calls made so far (the generator's position in its sequence of
answers) and the trace of actions performed so far. -/
structure LoopState (F : Type) where
  iEvent : Int
  iAbort : Int
  fjInputs : List (PseudoJet F)
  calls : Nat
  trace : List (Action F)

/-- How an execution of the loop body ends: `cont` for `continue` and for
reaching the end of the body, `brk` for `break`. -/
inductive Control where
  | cont
  | brk
deriving DecidableEq

/-- What `main` returns and what it did. -/
structure Outcome (F : Type) where
  exitCode : Int
  trace : List (Action F)

/-! ## Final-state selection (lines 110-124) -/

/-- The loop `for (int i = 0; i < pythia.event.size(); ++i)` of lines 113-124,
started at index `i` with `fjInputs` as it stands; the first argument bounds the
number of iterations. -/
def selectLoop {F : Type} (event : List (Particle F)) :
    Nat → Nat → List (PseudoJet F) → List (PseudoJet F)
  | 0, _, fjInputs => fjInputs
  | fuel + 1, i, fjInputs =>
    if h : i < event.length then
      if !(event[i]).isFinal then selectLoop event fuel (i + 1) fjInputs
      else if (event[i]).idAbs = 12 || (event[i]).idAbs = 14 || (event[i]).idAbs = 16 then
        selectLoop event fuel (i + 1) fjInputs
      else
        selectLoop event fuel (i + 1)
          (fjInputs ++ [PseudoJet.mk (event[i]).px (event[i]).py (event[i]).pz (event[i]).e])
    else fjInputs

/-- Lines 110-124: `fjInputs.resize(0)` followed by the selection loop over the
whole event record. -/
def fillFjInputs {F : Type} (event : List (Particle F)) (fjInputs : List (PseudoJet F)) :
    List (PseudoJet F) :=
  selectLoop event event.length 0 (fjInputs.take 0)

/-- The selection in the words of the specification: a particle is kept iff it
is final-state and its absolute species id is none of 12, 14, 16. -/
def keptBySpec {F : Type} (p : Particle F) : Bool :=
  p.isFinal && !(decide (p.idAbs = 12) || decide (p.idAbs = 14) || decide (p.idAbs = 16))

/-- The four-momentum `(px, py, pz, e)` of a particle. -/
def momentumOf {F : Type} (p : Particle F) : PseudoJet F :=
  PseudoJet.mk p.px p.py p.pz p.e

/-- The selection in the words of the specification: the four-momenta of the
kept particles, in event-record order. -/
def selectSpec {F : Type} (event : List (Particle F)) : List (PseudoJet F) :=
  (event.filter keptBySpec).map momentumOf

/-! ## The event loop (lines 81-156) -/

/-- Lines 83-87, the seeding calls made at the start of an iteration. -/
@[simp]
def seedActions {F : Type} (colSinglet : Bool) : List (Action F) :=
  if colSinglet then [Action.fillResonance] else [Action.fillParton, Action.forceTimeShower]

/-- Lines 83-154, one execution of the loop body from state `s`; `gen` gives the
generator's answer to each of its successive calls.  The result says whether
the body ended in `break`, and gives the state it leaves. -/
def loopBody {F : Type} (nAbort : Int) (colSinglet : Bool) (gen : Nat → Attempt F)
    (s : LoopState F) : Control × LoopState F :=
  let o := gen s.calls
  let s1 : LoopState F :=
    { s with calls := s.calls + 1
             trace := s.trace ++ seedActions colSinglet ++ [Action.next o.next] }
  if !o.next then
    if o.atEndOfFile then
      (Control.brk, { s1 with trace := s1.trace ++ [Action.printEndOfFile] })
    else
      let s2 : LoopState F := { s1 with iAbort := s1.iAbort + 1 }
      if s2.iAbort < nAbort then (Control.cont, s2)
      else (Control.brk, { s2 with trace := s2.trace ++ [Action.printAborted] })
  else
    let s2 : LoopState F :=
      { s1 with trace := s1.trace ++ [Action.newGenEvent, Action.fillNextEvent] }
    let s3 : LoopState F := { s2 with fjInputs := fillFjInputs o.event s2.fjInputs }
    if s3.fjInputs.length = 0 then
      (Control.cont, { s3 with trace := s3.trace ++ [Action.printNoFinalState] })
    else
      let s4 : LoopState F :=
        { s3 with trace := s3.trace ++ [Action.clusterSequence s3.fjInputs, Action.writeJets,
                                        Action.writeEvent, Action.deleteGenEvent] }
      if s4.iEvent < 1 then
        (Control.cont, { s4 with trace := s4.trace ++ [Action.listEvent] })
      else (Control.cont, s4)

/-- The `++iEvent` of line 82. -/
def advance {F : Type} (s : LoopState F) : LoopState F :=
  { s with iEvent := s.iEvent + 1 }

/-- Line 82, `for (...; iEvent < nEvent; ++iEvent)`, run from state `s` for at
most the given number of iterations: with `n` it gives the state after the
first `n` iterations, or the state at loop exit if the loop ends before. -/
def eventLoop {F : Type} (nEvent nAbort : Int) (colSinglet : Bool) (gen : Nat → Attempt F) :
    Nat → LoopState F → LoopState F
  | 0, s => s
  | fuel + 1, s =>
    if s.iEvent < nEvent then
      match (loopBody nAbort colSinglet gen s).1 with
      | Control.brk => (loopBody nAbort colSinglet gen s).2
      | Control.cont =>
        eventLoop nEvent nAbort colSinglet gen fuel (advance (loopBody nAbort colSinglet gen s).2)
    else s

/-- The state at loop entry after the actions in `t`: `int iAbort = 0`,
`int iEvent = 0`, `fjInputs` empty (line 78), no generation attempt made. -/
def entryState {F : Type} (t : List (Action F)) : LoopState F :=
  { iEvent := 0, iAbort := 0, fjInputs := [], calls := 0, trace := t }

/-- The whole event loop of lines 81-156 from its entry state.  The loop
counter starts at 0 and grows by one per iteration, so `nEvent.toNat`
iterations are all the loop can make (see `eventLoop_fuel`). -/
def runLoop {F : Type} (nEvent nAbort : Int) (colSinglet : Bool) (gen : Nat → Attempt F)
    (t : List (Action F)) : LoopState F :=
  eventLoop nEvent nAbort colSinglet gen nEvent.toNat (entryState t)

/-- The program `main`.  `argc` is the argument count, `fileFound` whether the
stream opened on `argv[1]` is good (line 30), `initOk` what `pythia.init()`
returns at line 70 (where the program drops it), `nEvent`, `nAbort`,
`colSinglet` the settings read at lines 59-65. -/
def main {F : Type} (argc : Int) (fileFound initOk : Bool) (nEvent nAbort : Int)
    (colSinglet : Bool) (gen : Nat → Attempt F) : Outcome F :=
  if argc ≠ 4 then { exitCode := 1, trace := [] }
  else if !fileFound then { exitCode := 1, trace := [] }
  else
    let s := runLoop nEvent nAbort colSinglet gen [Action.init initOk]
    { exitCode := 0, trace := s.trace ++ [Action.close, Action.stat] }

/-! ## Observations on a trace -/

/-- The inputs of the clustering-engine invocations of a trace, in order. -/
def clusterInputs {F : Type} : List (Action F) → List (List (PseudoJet F))
  | [] => []
  | Action.clusterSequence inputs :: t => inputs :: clusterInputs t
  | _ :: t => clusterInputs t

/-- A seeding call of the particle gun (one per iteration, line 83 or line 85). -/
@[simp]
def Action.isSeeding {F : Type} : Action F → Bool
  | Action.fillResonance => true
  | Action.fillParton => true
  | _ => false

/-- A generation attempt, `pythia.next()`. -/
@[simp]
def Action.isAttempt {F : Type} : Action F → Bool
  | Action.next _ => true
  | _ => false

/-- A generation attempt that failed, `pythia.next()` returning false. -/
@[simp]
def Action.isFailure {F : Type} : Action F → Bool
  | Action.next false => true
  | _ => false

/-- An invocation of the clustering engine. -/
@[simp]
def Action.isCluster {F : Type} : Action F → Bool
  | Action.clusterSequence _ => true
  | _ => false

/-- A jet summary written to the output store. -/
@[simp]
def Action.isWriteJets {F : Type} : Action F → Bool
  | Action.writeJets => true
  | _ => false

/-- An event record written to the output store. -/
@[simp]
def Action.isWriteEvent {F : Type} : Action F → Bool
  | Action.writeEvent => true
  | _ => false

/-- The notice of an event skipped for its empty final state. -/
@[simp]
def Action.isSkip {F : Type} : Action F → Bool
  | Action.printNoFinalState => true
  | _ => false

/-- The detailed dump of lines 146-153. -/
@[simp]
def Action.isDump {F : Type} : Action F → Bool
  | Action.listEvent => true
  | _ => false

/-- The close of the output store. -/
@[simp]
def Action.isClose {F : Type} : Action F → Bool
  | Action.close => true
  | _ => false

/-- The notice printed by the end-of-file `break`. -/
@[simp]
def Action.isEndOfFileNotice {F : Type} : Action F → Bool
  | Action.printEndOfFile => true
  | _ => false

/-- The notice printed by the `break` on a spent failure budget. -/
@[simp]
def Action.isAbortNotice {F : Type} : Action F → Bool
  | Action.printAborted => true
  | _ => false

/-- The allocation of a per-event conversion object. -/
@[simp]
def Action.isNew {F : Type} : Action F → Bool
  | Action.newGenEvent => true
  | _ => false

/-- The release of a per-event conversion object. -/
@[simp]
def Action.isDelete {F : Type} : Action F → Bool
  | Action.deleteGenEvent => true
  | _ => false

/-- Number of iterations started (each starts with one seeding). -/
@[simp]
def seedings {F : Type} (t : List (Action F)) : Nat := t.countP Action.isSeeding

/-- Number of generation attempts. -/
@[simp]
def attempts {F : Type} (t : List (Action F)) : Nat := t.countP Action.isAttempt

/-- Number of generation attempts that failed. -/
@[simp]
def failures {F : Type} (t : List (Action F)) : Nat := t.countP Action.isFailure

/-- Number of invocations of the clustering engine. -/
@[simp]
def clusterings {F : Type} (t : List (Action F)) : Nat := t.countP Action.isCluster

/-- Number of jet summaries written. -/
@[simp]
def jetSummaries {F : Type} (t : List (Action F)) : Nat := t.countP Action.isWriteJets

/-- Number of events persisted. -/
@[simp]
def persisted {F : Type} (t : List (Action F)) : Nat := t.countP Action.isWriteEvent

/-- Number of events skipped for an empty final state. -/
@[simp]
def skips {F : Type} (t : List (Action F)) : Nat := t.countP Action.isSkip

/-- Number of detailed dumps emitted. -/
@[simp]
def dumps {F : Type} (t : List (Action F)) : Nat := t.countP Action.isDump

/-- Number of times the output store was closed. -/
@[simp]
def closes {F : Type} (t : List (Action F)) : Nat := t.countP Action.isClose

/-- Number of times the loop was left by the end-of-file `break`. -/
@[simp]
def endOfFileExits {F : Type} (t : List (Action F)) : Nat := t.countP Action.isEndOfFileNotice

/-- Number of times the loop was left by the `break` on a spent failure budget. -/
@[simp]
def abortExits {F : Type} (t : List (Action F)) : Nat := t.countP Action.isAbortNotice

/-- Number of conversion objects allocated and not yet released. -/
@[simp]
def liveGenEvents {F : Type} (t : List (Action F)) : Int :=
  (t.countP Action.isNew : Int) - (t.countP Action.isDelete : Int)

/-! ## Shapes of the trace and of the state after an iteration; counts over the
generator's answers -/

/-- The trace an iteration leaves when the generator reports end of file. -/
@[simp]
def traceEndOfFile {F : Type} (colSinglet : Bool) (t : List (Action F)) : List (Action F) :=
  t ++ seedActions colSinglet ++ [Action.next false, Action.printEndOfFile]

/-- The trace an iteration leaves when generation fails within the budget. -/
@[simp]
def traceRetry {F : Type} (colSinglet : Bool) (t : List (Action F)) : List (Action F) :=
  t ++ seedActions colSinglet ++ [Action.next false]

/-- The trace an iteration leaves when generation fails and the budget is spent. -/
@[simp]
def traceAbort {F : Type} (colSinglet : Bool) (t : List (Action F)) : List (Action F) :=
  t ++ seedActions colSinglet ++ [Action.next false, Action.printAborted]

/-- The trace an iteration leaves when the event has nothing to cluster. -/
@[simp]
def traceSkip {F : Type} (colSinglet : Bool) (t : List (Action F)) : List (Action F) :=
  t ++ seedActions colSinglet ++
    [Action.next true, Action.newGenEvent, Action.fillNextEvent, Action.printNoFinalState]

/-- The trace an iteration leaves when the event is clustered and written. -/
@[simp]
def tracePersist {F : Type} (colSinglet : Bool) (iEvent : Int) (inputs : List (PseudoJet F))
    (t : List (Action F)) : List (Action F) :=
  t ++ seedActions colSinglet ++
    [Action.next true, Action.newGenEvent, Action.fillNextEvent, Action.clusterSequence inputs,
      Action.writeJets, Action.writeEvent, Action.deleteGenEvent] ++
    (if iEvent < 1 then [Action.listEvent] else [])

/-- The state in which the next iteration starts after a failure within the budget. -/
@[simp]
def stateRetry {F : Type} (colSinglet : Bool) (s : LoopState F) : LoopState F :=
  { iEvent := s.iEvent + 1, iAbort := s.iAbort + 1, fjInputs := s.fjInputs,
    calls := s.calls + 1, trace := traceRetry colSinglet s.trace }

/-- The state in which the next iteration starts after an event with nothing to cluster. -/
@[simp]
def stateSkip {F : Type} (colSinglet : Bool) (s : LoopState F) : LoopState F :=
  { iEvent := s.iEvent + 1, iAbort := s.iAbort, fjInputs := [],
    calls := s.calls + 1, trace := traceSkip colSinglet s.trace }

/-- The state in which the next iteration starts after a written event. -/
@[simp]
def statePersist {F : Type} (colSinglet : Bool) (gen : Nat → Attempt F) (s : LoopState F) :
    LoopState F :=
  { iEvent := s.iEvent + 1, iAbort := s.iAbort, fjInputs := selectSpec (gen s.calls).event,
    calls := s.calls + 1,
    trace := tracePersist colSinglet s.iEvent (selectSpec (gen s.calls).event) s.trace }

/-- The state the loop is left in when the generator reports end of file. -/
@[simp]
def stateEndOfFile {F : Type} (colSinglet : Bool) (s : LoopState F) : LoopState F :=
  { s with calls := s.calls + 1, trace := traceEndOfFile colSinglet s.trace }

/-- The state the loop is left in when the failure budget is spent. -/
@[simp]
def stateAbort {F : Type} (colSinglet : Bool) (s : LoopState F) : LoopState F :=
  { s with calls := s.calls + 1, iAbort := s.iAbort + 1, trace := traceAbort colSinglet s.trace }

/-- The state `s` with the actions `t` put in front of its trace. -/
def prependTrace {F : Type} (t : List (Action F)) (s : LoopState F) : LoopState F :=
  { s with trace := t ++ s.trace }

/-- Number of the generator's first `n` answers that satisfy `p`. -/
def countUpTo {F : Type} (p : Attempt F → Bool) (gen : Nat → Attempt F) : Nat → Nat
  | 0 => 0
  | n + 1 => countUpTo p gen n + (if p (gen n) then 1 else 0)

/-- A failure that is not an end of file: the kind the abort counter counts. -/
def Attempt.isBudgetedFailure {F : Type} (o : Attempt F) : Bool :=
  !o.next && !o.atEndOfFile

/-- A failure with the generator at end of file. -/
def Attempt.isEndOfFile {F : Type} (o : Attempt F) : Bool :=
  !o.next && o.atEndOfFile

/-- A generated event from which nothing is selected for clustering. -/
def Attempt.isEmptyFinalState {F : Type} (o : Attempt F) : Bool :=
  o.next && (selectSpec o.event).isEmpty

/-- A generated event from which something is selected for clustering. -/
def Attempt.isPersistable {F : Type} (o : Attempt F) : Bool :=
  o.next && !(selectSpec o.event).isEmpty

/-! ## Final-state selection: the loop computes the specified selection -/

theorem selectSpec_cons {F : Type} (p : Particle F) (l : List (Particle F)) :
    selectSpec (p :: l) = if keptBySpec p then momentumOf p :: selectSpec l else selectSpec l := by
  unfold selectSpec
  by_cases h : keptBySpec p = true <;> simp [List.filter_cons, h]

theorem selectLoop_eq {F : Type} (event : List (Particle F)) :
    ∀ (fuel i : Nat) (fjInputs : List (PseudoJet F)), event.length - i ≤ fuel →
      selectLoop event fuel i fjInputs = fjInputs ++ selectSpec (event.drop i) := by
  intro fuel
  induction fuel with
  | zero =>
    intro i fjInputs h
    have hle : event.length ≤ i := by omega
    simp [selectLoop, List.drop_eq_nil_of_le hle, selectSpec]
  | succ fuel ih =>
    intro i fjInputs h
    unfold selectLoop
    by_cases hi : i < event.length
    · have hdrop : event.drop i = event[i] :: event.drop (i + 1) := List.drop_eq_getElem_cons hi
      have hfuel : event.length - (i + 1) ≤ fuel := by omega
      rw [dif_pos hi, hdrop, selectSpec_cons]
      by_cases hf : (event[i]).isFinal = true
      · by_cases hn : ((event[i]).idAbs = 12 ∨ (event[i]).idAbs = 14) ∨ (event[i]).idAbs = 16
        · have hk : keptBySpec event[i] = false := by
            simp only [keptBySpec, hf, Bool.true_and, Bool.not_eq_false_eq_eq_true, Bool.or_eq_true,
              decide_eq_true_eq, Bool.not_eq_eq_eq_not, Bool.not_true]
            simpa using hn
          simp [hf, hn, hk, ih (i + 1) fjInputs hfuel]
        · have hk : keptBySpec event[i] = true := by
            simp only [keptBySpec, hf, Bool.true_and]
            simpa using hn
          simp [hf, hn, hk, ih (i + 1) _ hfuel, momentumOf]
      · have hk : keptBySpec event[i] = false := by simp [keptBySpec, hf]
        simp [hf, hk, ih (i + 1) fjInputs hfuel]
    · have hle : event.length ≤ i := by omega
      simp [hi, List.drop_eq_nil_of_le hle, selectSpec]

theorem fillFjInputs_eq {F : Type} (event : List (Particle F)) (fjInputs : List (PseudoJet F)) :
    fillFjInputs event fjInputs = selectSpec event := by
  unfold fillFjInputs
  rw [selectLoop_eq event event.length 0 _ (by omega)]
  simp

/-! ## The five ways through the loop body -/

theorem loopBody_endOfFile {F : Type} (nAbort : Int) (colSinglet : Bool) (gen : Nat → Attempt F)
    (s : LoopState F) (hn : (gen s.calls).next = false) (he : (gen s.calls).atEndOfFile = true) :
    loopBody nAbort colSinglet gen s =
      (Control.brk, { s with calls := s.calls + 1, trace := traceEndOfFile colSinglet s.trace }) := by
  simp [loopBody, hn, he, traceEndOfFile]

theorem loopBody_retry {F : Type} (nAbort : Int) (colSinglet : Bool) (gen : Nat → Attempt F)
    (s : LoopState F) (hn : (gen s.calls).next = false) (he : (gen s.calls).atEndOfFile = false)
    (hb : s.iAbort + 1 < nAbort) :
    loopBody nAbort colSinglet gen s =
      (Control.cont, { s with calls := s.calls + 1, iAbort := s.iAbort + 1,
                              trace := traceRetry colSinglet s.trace }) := by
  simp [loopBody, hn, he, hb, traceRetry]

theorem loopBody_abort {F : Type} (nAbort : Int) (colSinglet : Bool) (gen : Nat → Attempt F)
    (s : LoopState F) (hn : (gen s.calls).next = false) (he : (gen s.calls).atEndOfFile = false)
    (hb : ¬ s.iAbort + 1 < nAbort) :
    loopBody nAbort colSinglet gen s =
      (Control.brk, { s with calls := s.calls + 1, iAbort := s.iAbort + 1,
                             trace := traceAbort colSinglet s.trace }) := by
  simp [loopBody, hn, he, hb, traceAbort]

theorem loopBody_skip {F : Type} (nAbort : Int) (colSinglet : Bool) (gen : Nat → Attempt F)
    (s : LoopState F) (hn : (gen s.calls).next = true)
    (hs : selectSpec (gen s.calls).event = []) :
    loopBody nAbort colSinglet gen s =
      (Control.cont, { s with calls := s.calls + 1, fjInputs := [],
                              trace := traceSkip colSinglet s.trace }) := by
  simp [loopBody, hn, hs, fillFjInputs_eq, traceSkip]

theorem loopBody_persist {F : Type} (nAbort : Int) (colSinglet : Bool) (gen : Nat → Attempt F)
    (s : LoopState F) (hn : (gen s.calls).next = true)
    (hs : selectSpec (gen s.calls).event ≠ []) :
    loopBody nAbort colSinglet gen s =
      (Control.cont, { s with calls := s.calls + 1, fjInputs := selectSpec (gen s.calls).event,
                              trace := tracePersist colSinglet s.iEvent
                                (selectSpec (gen s.calls).event) s.trace }) := by
  by_cases h1 : s.iEvent < 1 <;> simp [loopBody, hn, hs, fillFjInputs_eq, tracePersist, h1]

/-! ## Unfolding the event loop -/

theorem eventLoop_zero {F : Type} (nEvent nAbort : Int) (colSinglet : Bool)
    (gen : Nat → Attempt F) (s : LoopState F) :
    eventLoop nEvent nAbort colSinglet gen 0 s = s := rfl

theorem eventLoop_exit {F : Type} (nEvent nAbort : Int) (colSinglet : Bool)
    (gen : Nat → Attempt F) (fuel : Nat) (s : LoopState F) (h : ¬ s.iEvent < nEvent) :
    eventLoop nEvent nAbort colSinglet gen (fuel + 1) s = s := by
  simp [eventLoop, h]

theorem eventLoop_endOfFile {F : Type} (nEvent nAbort : Int) (colSinglet : Bool)
    (gen : Nat → Attempt F) (fuel : Nat) (s : LoopState F) (h : s.iEvent < nEvent)
    (hn : (gen s.calls).next = false) (he : (gen s.calls).atEndOfFile = true) :
    eventLoop nEvent nAbort colSinglet gen (fuel + 1) s = stateEndOfFile colSinglet s := by
  simp [eventLoop, h, loopBody_endOfFile nAbort colSinglet gen s hn he, stateEndOfFile]

theorem eventLoop_abort {F : Type} (nEvent nAbort : Int) (colSinglet : Bool)
    (gen : Nat → Attempt F) (fuel : Nat) (s : LoopState F) (h : s.iEvent < nEvent)
    (hn : (gen s.calls).next = false) (he : (gen s.calls).atEndOfFile = false)
    (hb : ¬ s.iAbort + 1 < nAbort) :
    eventLoop nEvent nAbort colSinglet gen (fuel + 1) s = stateAbort colSinglet s := by
  simp [eventLoop, h, loopBody_abort nAbort colSinglet gen s hn he hb, stateAbort]

theorem eventLoop_retry {F : Type} (nEvent nAbort : Int) (colSinglet : Bool)
    (gen : Nat → Attempt F) (fuel : Nat) (s : LoopState F) (h : s.iEvent < nEvent)
    (hn : (gen s.calls).next = false) (he : (gen s.calls).atEndOfFile = false)
    (hb : s.iAbort + 1 < nAbort) :
    eventLoop nEvent nAbort colSinglet gen (fuel + 1) s =
      eventLoop nEvent nAbort colSinglet gen fuel (stateRetry colSinglet s) := by
  simp [eventLoop, h, loopBody_retry nAbort colSinglet gen s hn he hb, stateRetry, advance]

theorem eventLoop_skip {F : Type} (nEvent nAbort : Int) (colSinglet : Bool)
    (gen : Nat → Attempt F) (fuel : Nat) (s : LoopState F) (h : s.iEvent < nEvent)
    (hn : (gen s.calls).next = true) (hs : selectSpec (gen s.calls).event = []) :
    eventLoop nEvent nAbort colSinglet gen (fuel + 1) s =
      eventLoop nEvent nAbort colSinglet gen fuel (stateSkip colSinglet s) := by
  simp [eventLoop, h, loopBody_skip nAbort colSinglet gen s hn hs, stateSkip, advance]

theorem eventLoop_persist {F : Type} (nEvent nAbort : Int) (colSinglet : Bool)
    (gen : Nat → Attempt F) (fuel : Nat) (s : LoopState F) (h : s.iEvent < nEvent)
    (hn : (gen s.calls).next = true) (hs : selectSpec (gen s.calls).event ≠ []) :
    eventLoop nEvent nAbort colSinglet gen (fuel + 1) s =
      eventLoop nEvent nAbort colSinglet gen fuel (statePersist colSinglet gen s) := by
  simp [eventLoop, h, loopBody_persist nAbort colSinglet gen s hn hs, statePersist, advance]

/-- Induction over the iterations of the event loop: a relation between the
state before and the state after holds of every run of the loop as soon as it
holds of the two ways the loop stops without running the body, of the two
`break`s, and is carried back over each of the three ways the body reaches the
next iteration. -/
theorem eventLoop_induction {F : Type} (nEvent nAbort : Int) (colSinglet : Bool)
    (gen : Nat → Attempt F) (P : Nat → LoopState F → LoopState F → Prop)
    (hzero : ∀ s, P 0 s s)
    (hexit : ∀ fuel s, ¬ s.iEvent < nEvent → P (fuel + 1) s s)
    (heof : ∀ fuel s, s.iEvent < nEvent → (gen s.calls).next = false →
      (gen s.calls).atEndOfFile = true → P (fuel + 1) s (stateEndOfFile colSinglet s))
    (habort : ∀ fuel s, s.iEvent < nEvent → (gen s.calls).next = false →
      (gen s.calls).atEndOfFile = false → ¬ s.iAbort + 1 < nAbort →
      P (fuel + 1) s (stateAbort colSinglet s))
    (hretry : ∀ fuel s r, s.iEvent < nEvent → (gen s.calls).next = false →
      (gen s.calls).atEndOfFile = false → s.iAbort + 1 < nAbort →
      P fuel (stateRetry colSinglet s) r → P (fuel + 1) s r)
    (hskip : ∀ fuel s r, s.iEvent < nEvent → (gen s.calls).next = true →
      selectSpec (gen s.calls).event = [] →
      P fuel (stateSkip colSinglet s) r → P (fuel + 1) s r)
    (hpersist : ∀ fuel s r, s.iEvent < nEvent → (gen s.calls).next = true →
      selectSpec (gen s.calls).event ≠ [] →
      P fuel (statePersist colSinglet gen s) r → P (fuel + 1) s r) :
    ∀ fuel s, P fuel s (eventLoop nEvent nAbort colSinglet gen fuel s) := by
  intro fuel
  induction fuel with
  | zero => intro s; exact hzero s
  | succ fuel ih =>
    intro s
    by_cases h : s.iEvent < nEvent
    · cases hn : (gen s.calls).next with
      | false =>
        cases he : (gen s.calls).atEndOfFile with
        | true =>
          rw [eventLoop_endOfFile nEvent nAbort colSinglet gen fuel s h hn he]
          exact heof fuel s h hn he
        | false =>
          by_cases hb : s.iAbort + 1 < nAbort
          · rw [eventLoop_retry nEvent nAbort colSinglet gen fuel s h hn he hb]
            exact hretry fuel s _ h hn he hb (ih _)
          · rw [eventLoop_abort nEvent nAbort colSinglet gen fuel s h hn he hb]
            exact habort fuel s h hn he hb
      | true =>
        by_cases hs : selectSpec (gen s.calls).event = []
        · rw [eventLoop_skip nEvent nAbort colSinglet gen fuel s h hn hs]
          exact hskip fuel s _ h hn hs (ih _)
        · rw [eventLoop_persist nEvent nAbort colSinglet gen fuel s h hn hs]
          exact hpersist fuel s _ h hn hs (ih _)
    · rw [eventLoop_exit nEvent nAbort colSinglet gen fuel s h]
      exact hexit fuel s h

/-! ## Accounting of iterations -/

theorem eventLoop_accounting {F : Type} (nEvent nAbort : Int) (colSinglet : Bool)
    (gen : Nat → Attempt F) (fuel : Nat) (s : LoopState F) :
    seedings (eventLoop nEvent nAbort colSinglet gen fuel s).trace + attempts s.trace =
        attempts (eventLoop nEvent nAbort colSinglet gen fuel s).trace + seedings s.trace ∧
      persisted (eventLoop nEvent nAbort colSinglet gen fuel s).trace +
          skips (eventLoop nEvent nAbort colSinglet gen fuel s).trace +
          failures (eventLoop nEvent nAbort colSinglet gen fuel s).trace + attempts s.trace =
        attempts (eventLoop nEvent nAbort colSinglet gen fuel s).trace +
          (persisted s.trace + skips s.trace + failures s.trace) ∧
      attempts s.trace ≤ attempts (eventLoop nEvent nAbort colSinglet gen fuel s).trace ∧
      attempts (eventLoop nEvent nAbort colSinglet gen fuel s).trace ≤
        attempts s.trace + (nEvent - s.iEvent).toNat ∧
      ((nEvent - s.iEvent).toNat ≤ fuel →
        endOfFileExits (eventLoop nEvent nAbort colSinglet gen fuel s).trace +
            abortExits (eventLoop nEvent nAbort colSinglet gen fuel s).trace =
          endOfFileExits s.trace + abortExits s.trace →
        attempts (eventLoop nEvent nAbort colSinglet gen fuel s).trace =
          attempts s.trace + (nEvent - s.iEvent).toNat) := by
  refine eventLoop_induction nEvent nAbort colSinglet gen
    (fun fuel s r =>
      seedings r.trace + attempts s.trace = attempts r.trace + seedings s.trace ∧
      persisted r.trace + skips r.trace + failures r.trace + attempts s.trace =
        attempts r.trace + (persisted s.trace + skips s.trace + failures s.trace) ∧
      attempts s.trace ≤ attempts r.trace ∧
      attempts r.trace ≤ attempts s.trace + (nEvent - s.iEvent).toNat ∧
      ((nEvent - s.iEvent).toNat ≤ fuel →
        endOfFileExits r.trace + abortExits r.trace = endOfFileExits s.trace + abortExits s.trace →
        attempts r.trace = attempts s.trace + (nEvent - s.iEvent).toNat))
    ?_ ?_ ?_ ?_ ?_ ?_ ?_ fuel s
  · intro s
    refine ⟨by omega, by omega, by omega, by omega, ?_⟩
    intro h _
    omega
  · intro fuel s h
    refine ⟨by omega, by omega, by omega, by omega, ?_⟩
    intro _ _
    omega
  · intro fuel s h hn he
    cases colSinglet <;> simp <;> omega
  · intro fuel s h hn he hb
    cases colSinglet <;> simp <;> omega
  · intro fuel s r h hn he hb ih
    cases colSinglet <;> simp at ih ⊢ <;> omega
  · intro fuel s r h hn hs ih
    cases colSinglet <;> simp at ih ⊢ <;> omega
  · intro fuel s r h hn hs ih
    cases colSinglet <;> by_cases h1 : s.iEvent < 1 <;> simp [h1] at ih ⊢ <;> omega

/-! ## Termination of the event loop and range of its counters -/

theorem eventLoop_fuel_add {F : Type} (nEvent nAbort : Int) (colSinglet : Bool)
    (gen : Nat → Attempt F) :
    ∀ (fuel k : Nat) (s : LoopState F), (nEvent - s.iEvent).toNat ≤ fuel →
      eventLoop nEvent nAbort colSinglet gen (fuel + k) s =
        eventLoop nEvent nAbort colSinglet gen fuel s := by
  intro fuel
  induction fuel with
  | zero =>
    intro k s h
    have hge : ¬ s.iEvent < nEvent := by omega
    cases k with
    | zero => rfl
    | succ k =>
      rw [Nat.zero_add, eventLoop_exit nEvent nAbort colSinglet gen k s hge, eventLoop_zero]
  | succ fuel ih =>
    intro k s h
    have hk : fuel + 1 + k = (fuel + k) + 1 := by omega
    rw [hk]
    by_cases hlt : s.iEvent < nEvent
    · cases hn : (gen s.calls).next with
      | false =>
        cases he : (gen s.calls).atEndOfFile with
        | true =>
          rw [eventLoop_endOfFile nEvent nAbort colSinglet gen _ s hlt hn he,
            eventLoop_endOfFile nEvent nAbort colSinglet gen _ s hlt hn he]
        | false =>
          by_cases hb : s.iAbort + 1 < nAbort
          · rw [eventLoop_retry nEvent nAbort colSinglet gen _ s hlt hn he hb,
              eventLoop_retry nEvent nAbort colSinglet gen _ s hlt hn he hb]
            exact ih k _ (by simp; omega)
          · rw [eventLoop_abort nEvent nAbort colSinglet gen _ s hlt hn he hb,
              eventLoop_abort nEvent nAbort colSinglet gen _ s hlt hn he hb]
      | true =>
        by_cases hs : selectSpec (gen s.calls).event = []
        · rw [eventLoop_skip nEvent nAbort colSinglet gen _ s hlt hn hs,
            eventLoop_skip nEvent nAbort colSinglet gen _ s hlt hn hs]
          exact ih k _ (by simp; omega)
        · rw [eventLoop_persist nEvent nAbort colSinglet gen _ s hlt hn hs,
            eventLoop_persist nEvent nAbort colSinglet gen _ s hlt hn hs]
          exact ih k _ (by simp; omega)
    · rw [eventLoop_exit nEvent nAbort colSinglet gen _ s hlt,
        eventLoop_exit nEvent nAbort colSinglet gen _ s hlt]

/-- The loop terminates: once the bound on the number of iterations is at least
`nEvent - iEvent`, a larger bound gives the same final state. -/
theorem eventLoop_fuel {F : Type} (nEvent nAbort : Int) (colSinglet : Bool)
    (gen : Nat → Attempt F) (fuel : Nat) (s : LoopState F)
    (h : (nEvent - s.iEvent).toNat ≤ fuel) :
    eventLoop nEvent nAbort colSinglet gen fuel s =
      eventLoop nEvent nAbort colSinglet gen (nEvent - s.iEvent).toNat s := by
  obtain ⟨k, hk⟩ : ∃ k, fuel = (nEvent - s.iEvent).toNat + k :=
    ⟨fuel - (nEvent - s.iEvent).toNat, by omega⟩
  rw [hk]
  exact eventLoop_fuel_add nEvent nAbort colSinglet gen _ k s (le_refl _)

/-- The counters stay in the range of `int`: from a state with
`iAbort <= iEvent`, the loop keeps `iAbort <= iEvent + 1` and never takes either
counter above the larger of its start value and `nEvent`. -/
theorem eventLoop_counters {F : Type} (nEvent nAbort : Int) (colSinglet : Bool)
    (gen : Nat → Attempt F) (fuel : Nat) (s : LoopState F) (h : s.iAbort ≤ s.iEvent) :
    s.iEvent ≤ (eventLoop nEvent nAbort colSinglet gen fuel s).iEvent ∧
      s.iAbort ≤ (eventLoop nEvent nAbort colSinglet gen fuel s).iAbort ∧
      (eventLoop nEvent nAbort colSinglet gen fuel s).iEvent ≤ max nEvent s.iEvent ∧
      (eventLoop nEvent nAbort colSinglet gen fuel s).iAbort ≤ max nEvent s.iEvent ∧
      (eventLoop nEvent nAbort colSinglet gen fuel s).iAbort ≤
        (eventLoop nEvent nAbort colSinglet gen fuel s).iEvent + 1 := by
  refine eventLoop_induction nEvent nAbort colSinglet gen
    (fun _ s r => s.iAbort ≤ s.iEvent →
      s.iEvent ≤ r.iEvent ∧ s.iAbort ≤ r.iAbort ∧ r.iEvent ≤ max nEvent s.iEvent ∧
        r.iAbort ≤ max nEvent s.iEvent ∧ r.iAbort ≤ r.iEvent + 1)
    ?_ ?_ ?_ ?_ ?_ ?_ ?_ fuel s h
  · intro s h; omega
  · intro fuel s _ h; omega
  · intro fuel s h _ _ h0; simp; omega
  · intro fuel s h _ _ _ h0; simp; omega
  · intro fuel s r h _ _ _ ih h0
    have := ih (by simp; omega)
    simp at this
    omega
  · intro fuel s r h _ _ ih h0
    have := ih (by simp; omega)
    simp at this
    omega
  · intro fuel s r h _ _ ih h0
    have := ih (by simp; omega)
    simp at this
    omega

/-! ## The trace is only ever appended to -/

theorem eventLoop_prependTrace {F : Type} (nEvent nAbort : Int) (colSinglet : Bool)
    (gen : Nat → Attempt F) (t : List (Action F)) :
    ∀ (fuel : Nat) (s : LoopState F),
      eventLoop nEvent nAbort colSinglet gen fuel (prependTrace t s) =
        prependTrace t (eventLoop nEvent nAbort colSinglet gen fuel s) := by
  intro fuel
  induction fuel with
  | zero => intro s; rfl
  | succ fuel ih =>
    intro s
    by_cases hlt : s.iEvent < nEvent
    · have hlt2 : (prependTrace t s).iEvent < nEvent := hlt
      cases hn : (gen s.calls).next with
      | false =>
        have hn2 : (gen (prependTrace t s).calls).next = false := hn
        cases he : (gen s.calls).atEndOfFile with
        | true =>
          have he2 : (gen (prependTrace t s).calls).atEndOfFile = true := he
          rw [eventLoop_endOfFile nEvent nAbort colSinglet gen _ s hlt hn he,
            eventLoop_endOfFile nEvent nAbort colSinglet gen _ _ hlt2 hn2 he2]
          simp [prependTrace, List.append_assoc]
        | false =>
          have he2 : (gen (prependTrace t s).calls).atEndOfFile = false := he
          by_cases hb : s.iAbort + 1 < nAbort
          · have hb2 : (prependTrace t s).iAbort + 1 < nAbort := hb
            rw [eventLoop_retry nEvent nAbort colSinglet gen _ s hlt hn he hb,
              eventLoop_retry nEvent nAbort colSinglet gen _ _ hlt2 hn2 he2 hb2, ← ih]
            simp [prependTrace, List.append_assoc]
          · have hb2 : ¬ (prependTrace t s).iAbort + 1 < nAbort := hb
            rw [eventLoop_abort nEvent nAbort colSinglet gen _ s hlt hn he hb,
              eventLoop_abort nEvent nAbort colSinglet gen _ _ hlt2 hn2 he2 hb2]
            simp [prependTrace, List.append_assoc]
      | true =>
        have hn2 : (gen (prependTrace t s).calls).next = true := hn
        by_cases hs : selectSpec (gen s.calls).event = []
        · have hs2 : selectSpec (gen (prependTrace t s).calls).event = [] := hs
          rw [eventLoop_skip nEvent nAbort colSinglet gen _ s hlt hn hs,
            eventLoop_skip nEvent nAbort colSinglet gen _ _ hlt2 hn2 hs2, ← ih]
          simp [prependTrace, List.append_assoc]
        · have hs2 : selectSpec (gen (prependTrace t s).calls).event ≠ [] := hs
          rw [eventLoop_persist nEvent nAbort colSinglet gen _ s hlt hn hs,
            eventLoop_persist nEvent nAbort colSinglet gen _ _ hlt2 hn2 hs2, ← ih]
          simp [prependTrace, List.append_assoc]
    · have hlt2 : ¬ (prependTrace t s).iEvent < nEvent := hlt
      rw [eventLoop_exit nEvent nAbort colSinglet gen _ s hlt,
        eventLoop_exit nEvent nAbort colSinglet gen _ _ hlt2]

/-- The actions already performed at loop entry stay in front of the trace and
have no influence on what the loop does. -/
theorem runLoop_trace {F : Type} (nEvent nAbort : Int) (colSinglet : Bool)
    (gen : Nat → Attempt F) (t : List (Action F)) :
    (runLoop nEvent nAbort colSinglet gen t).trace =
      t ++ (runLoop nEvent nAbort colSinglet gen []).trace := by
  have h : entryState t = prependTrace t (entryState ([] : List (Action F))) := by
    simp [entryState, prependTrace]
  unfold runLoop
  rw [h, eventLoop_prependTrace]
  rfl

theorem main_started {F : Type} (initOk : Bool) (nEvent nAbort : Int) (colSinglet : Bool)
    (gen : Nat → Attempt F) :
    main 4 true initOk nEvent nAbort colSinglet gen =
      { exitCode := 0
        trace := (runLoop nEvent nAbort colSinglet gen [Action.init initOk]).trace ++
          [Action.close, Action.stat] } := by
  simp [main]

/-- The trace of a run that passes the startup checks: the generator's
initialisation, the event loop, the close of the store and the statistics. -/
theorem main_trace {F : Type} (initOk : Bool) (nEvent nAbort : Int) (colSinglet : Bool)
    (gen : Nat → Attempt F) :
    (main 4 true initOk nEvent nAbort colSinglet gen).trace =
      Action.init initOk ::
        ((runLoop nEvent nAbort colSinglet gen []).trace ++ [Action.close, Action.stat]) := by
  rw [main_started]
  simp only
  rw [runLoop_trace]
  rfl

theorem clusterInputs_append {F : Type} (a b : List (Action F)) :
    clusterInputs (a ++ b) = clusterInputs a ++ clusterInputs b := by
  induction a with
  | nil => rfl
  | cons x a ih => cases x <;> simp [clusterInputs, ih]

/-! ## Counting over the generator's answers -/

theorem countUpTo_mono {F : Type} (p : Attempt F → Bool) (gen : Nat → Attempt F) (m n : Nat)
    (h : m ≤ n) : countUpTo p gen m ≤ countUpTo p gen n := by
  induction n with
  | zero =>
    have : m = 0 := by omega
    subst this
    exact le_refl _
  | succ n ih =>
    by_cases hm : m = n + 1
    · subst hm; exact le_refl _
    · have := ih (by omega)
      simp only [countUpTo]
      omega

theorem countUpTo_partition {F : Type} (gen : Nat → Attempt F) (n : Nat) :
    countUpTo Attempt.isPersistable gen n + countUpTo Attempt.isEmptyFinalState gen n +
      countUpTo Attempt.isBudgetedFailure gen n + countUpTo Attempt.isEndOfFile gen n = n := by
  induction n with
  | zero => rfl
  | succ n ih =>
    simp only [countUpTo, Attempt.isPersistable, Attempt.isEmptyFinalState,
      Attempt.isBudgetedFailure, Attempt.isEndOfFile]
    by_cases h1 : (gen n).next = true <;> by_cases h2 : (gen n).atEndOfFile = true <;>
      by_cases h3 : (selectSpec (gen n).event).isEmpty = true <;> simp [h1, h2, h3] <;> omega

/-! ## Final-state selection and what reaches the clustering engine -/

theorem selectSpec_filter_final {F : Type} (event : List (Particle F)) :
    selectSpec event = selectSpec (event.filter (fun p => p.isFinal)) := by
  unfold selectSpec
  rw [List.filter_filter]
  congr 1
  apply List.filter_congr
  intro p _
  cases h : p.isFinal <;> simp [keptBySpec, h]

/-- C1: whatever `fjInputs` held before, the selection of lines 110-124 leaves in
it exactly the four-momenta `(px, py, pz, e)` of the entries of the current event
that are final-state and whose absolute species id is none of 12, 14, 16, in
event-record order; the clustering engine is invoked in an iteration only on a
generated event with a non-empty selection, and then on exactly that sequence;
and for an event whose final-state entries are one neutrino of code 12 and one
photon (code 22), in either order, the sequence is the photon's momentum alone. -/
theorem clustering_inputs_are_selected_momenta {F : Type} (nAbort : Int) (colSinglet : Bool)
    (gen : Nat → Attempt F) (s : LoopState F) (event : List (Particle F))
    (prior : List (PseudoJet F)) :
    fillFjInputs event prior =
        (event.filter (fun p => p.isFinal &&
          !(decide (|p.id| = 12) || decide (|p.id| = 14) || decide (|p.id| = 16)))).map
          (fun p => PseudoJet.mk p.px p.py p.pz p.e) ∧
      clusterInputs (loopBody nAbort colSinglet gen s).2.trace =
        clusterInputs s.trace ++
          (if (gen s.calls).next && !(fillFjInputs (gen s.calls).event s.fjInputs).isEmpty then
            [fillFjInputs (gen s.calls).event s.fjInputs] else []) ∧
      (∀ nu ph : Particle F, |nu.id| = 12 → ph.id = 22 →
        (event.filter (fun p => p.isFinal) = [nu, ph] ∨
          event.filter (fun p => p.isFinal) = [ph, nu]) →
        fillFjInputs event prior = [PseudoJet.mk ph.px ph.py ph.pz ph.e]) := by
  refine ⟨?_, ?_, ?_⟩
  · rw [fillFjInputs_eq]
    rfl
  · simp only [fillFjInputs_eq]
    by_cases hn : (gen s.calls).next = true
    · by_cases hs : selectSpec (gen s.calls).event = []
      · rw [loopBody_skip nAbort colSinglet gen s hn hs]
        cases colSinglet <;> simp [hs, clusterInputs_append, clusterInputs]
      · rw [loopBody_persist nAbort colSinglet gen s hn hs]
        have hs2 : (selectSpec (gen s.calls).event).isEmpty = false := by
          simpa [List.isEmpty_iff] using hs
        cases colSinglet <;> by_cases h1 : s.iEvent < 1 <;>
          simp [hn, hs2, h1, clusterInputs_append, clusterInputs]
    · have hn2 : (gen s.calls).next = false := by simpa using hn
      cases he : (gen s.calls).atEndOfFile with
      | true =>
        rw [loopBody_endOfFile nAbort colSinglet gen s hn2 he]
        cases colSinglet <;> simp [hn2, clusterInputs_append, clusterInputs]
      | false =>
        by_cases hb : s.iAbort + 1 < nAbort
        · rw [loopBody_retry nAbort colSinglet gen s hn2 he hb]
          cases colSinglet <;> simp [hn2, clusterInputs_append, clusterInputs]
        · rw [loopBody_abort nAbort colSinglet gen s hn2 he hb]
          cases colSinglet <;> simp [hn2, clusterInputs_append, clusterInputs]
  · intro nu ph hnu hph hev
    have hnuk : keptBySpec nu = false := by simp [keptBySpec, Particle.idAbs, hnu]
    have hphf : ph.isFinal = true := by
      have hmem : ph ∈ event.filter (fun p => p.isFinal) := by
        rcases hev with h | h <;> simp [h]
      simpa using (List.mem_filter.mp hmem).2
    have hphk : keptBySpec ph = true := by
      simp [keptBySpec, Particle.idAbs, hph, hphf]
    rw [fillFjInputs_eq, selectSpec_filter_final]
    rcases hev with h | h <;> simp [h, selectSpec, List.filter_cons, hnuk, hphk, momentumOf]

/-- C1 at an event made of a non-final electron, a final neutrino of code 12 and
a final photon, with stale content in `fjInputs`. -/
theorem clustering_inputs_are_selected_momenta_witness :
    fillFjInputs
        [Particle.mk false 11 (1 : Int) 2 3 4, Particle.mk true 12 5 6 7 8,
          Particle.mk true 22 9 10 11 12]
        [PseudoJet.mk 0 0 0 0] =
      [PseudoJet.mk 9 10 11 12] :=
  (clustering_inputs_are_selected_momenta 3 true
      (fun _ => Attempt.mk true false [])
      (entryState [])
      [Particle.mk false 11 (1 : Int) 2 3 4, Particle.mk true 12 5 6 7 8,
        Particle.mk true 22 9 10 11 12]
      [PseudoJet.mk 0 0 0 0]).2.2
    (Particle.mk true 12 5 6 7 8) (Particle.mk true 22 9 10 11 12) (by decide) (by decide)
    (Or.inl (by decide))

/-! ## Exits of the loop and the output store -/

theorem eventLoop_exits {F : Type} (nEvent nAbort : Int) (colSinglet : Bool)
    (gen : Nat → Attempt F) (fuel : Nat) (s : LoopState F) :
    closes (eventLoop nEvent nAbort colSinglet gen fuel s).trace = closes s.trace ∧
      endOfFileExits s.trace ≤ endOfFileExits (eventLoop nEvent nAbort colSinglet gen fuel s).trace ∧
      abortExits s.trace ≤ abortExits (eventLoop nEvent nAbort colSinglet gen fuel s).trace ∧
      endOfFileExits (eventLoop nEvent nAbort colSinglet gen fuel s).trace +
          abortExits (eventLoop nEvent nAbort colSinglet gen fuel s).trace ≤
        endOfFileExits s.trace + abortExits s.trace + 1 ∧
      jetSummaries (eventLoop nEvent nAbort colSinglet gen fuel s).trace + persisted s.trace =
        persisted (eventLoop nEvent nAbort colSinglet gen fuel s).trace + jetSummaries s.trace ∧
      clusterings (eventLoop nEvent nAbort colSinglet gen fuel s).trace + persisted s.trace =
        persisted (eventLoop nEvent nAbort colSinglet gen fuel s).trace + clusterings s.trace := by
  refine eventLoop_induction nEvent nAbort colSinglet gen
    (fun _ s r =>
      closes r.trace = closes s.trace ∧
      endOfFileExits s.trace ≤ endOfFileExits r.trace ∧
      abortExits s.trace ≤ abortExits r.trace ∧
      endOfFileExits r.trace + abortExits r.trace ≤ endOfFileExits s.trace + abortExits s.trace + 1 ∧
      jetSummaries r.trace + persisted s.trace = persisted r.trace + jetSummaries s.trace ∧
      clusterings r.trace + persisted s.trace = persisted r.trace + clusterings s.trace)
    ?_ ?_ ?_ ?_ ?_ ?_ ?_ fuel s
  · intro s; omega
  · intro fuel s _; omega
  · intro fuel s _ _ _
    cases colSinglet <;> simp <;> omega
  · intro fuel s _ _ _ _
    cases colSinglet <;> simp <;> omega
  · intro fuel s r _ _ _ _ ih
    cases colSinglet <;> simp at ih ⊢ <;> omega
  · intro fuel s r _ _ _ ih
    cases colSinglet <;> simp at ih ⊢ <;> omega
  · intro fuel s r _ _ _ ih
    cases colSinglet <;> by_cases h1 : s.iEvent < 1 <;> simp [h1] at ih ⊢ <;> omega

/-- C8: in every run that passes the startup checks, whatever the generator
answers, the trace of the run is the trace of the event loop followed by the
close of the output store and the statistics: the store is closed exactly once,
and every jet summary and every event record is written before the close,
whether the loop ended on the target count, on end of file or on a spent failure
budget (the loop is left by at most one of the two `break`s). -/
theorem store_closed_exactly_once {F : Type} (initOk : Bool) (nEvent nAbort : Int)
    (colSinglet : Bool) (gen : Nat → Attempt F) :
    closes (main 4 true initOk nEvent nAbort colSinglet gen).trace = 1 ∧
      (∃ pre, (main 4 true initOk nEvent nAbort colSinglet gen).trace =
          pre ++ [Action.close, Action.stat] ∧
        closes pre = 0 ∧
        persisted pre = persisted (main 4 true initOk nEvent nAbort colSinglet gen).trace ∧
        jetSummaries pre = jetSummaries (main 4 true initOk nEvent nAbort colSinglet gen).trace ∧
        endOfFileExits pre + abortExits pre ≤ 1) := by
  have h := eventLoop_exits nEvent nAbort colSinglet gen nEvent.toNat
    (entryState [Action.init initOk])
  have hc : closes (runLoop nEvent nAbort colSinglet gen [Action.init initOk]).trace = 0 := h.1
  have hx : endOfFileExits (runLoop nEvent nAbort colSinglet gen [Action.init initOk]).trace +
      abortExits (runLoop nEvent nAbort colSinglet gen [Action.init initOk]).trace ≤ 1 :=
    h.2.2.2.1
  rw [main_started]
  refine ⟨?_, (runLoop nEvent nAbort colSinglet gen [Action.init initOk]).trace, rfl, hc, ?_, ?_, hx⟩
  · simp only [closes, List.countP_append] at hc ⊢
    rw [hc]
    rfl
  · simp only [persisted, List.countP_append]
    rfl
  · simp only [jetSummaries, List.countP_append]
    rfl

/-! ## Accounting of a whole run -/

/-- C10: in every run that passes the startup checks, each loop iteration makes
exactly one generation attempt (as many seedings as attempts), every attempt is
either a persisted event, an empty-final-state skip or a failed attempt (an
attempt on which `pythia.next()` returned false), and there are at most
`max(nEvent, 0)` attempts; a run that is not left by a `break`, in which every
failed attempt was therefore written off, makes exactly `max(nEvent, 0)`
attempts, and a run that makes `nEvent` attempts persists `nEvent` minus skips
minus failed attempts events. -/
theorem iterations_accounting {F : Type} (initOk : Bool) (nEvent nAbort : Int)
    (colSinglet : Bool) (gen : Nat → Attempt F) :
    seedings (main 4 true initOk nEvent nAbort colSinglet gen).trace =
        attempts (main 4 true initOk nEvent nAbort colSinglet gen).trace ∧
      persisted (main 4 true initOk nEvent nAbort colSinglet gen).trace +
          skips (main 4 true initOk nEvent nAbort colSinglet gen).trace +
          failures (main 4 true initOk nEvent nAbort colSinglet gen).trace =
        attempts (main 4 true initOk nEvent nAbort colSinglet gen).trace ∧
      (attempts (main 4 true initOk nEvent nAbort colSinglet gen).trace : Int) ≤ max nEvent 0 ∧
      (endOfFileExits (main 4 true initOk nEvent nAbort colSinglet gen).trace = 0 →
        abortExits (main 4 true initOk nEvent nAbort colSinglet gen).trace = 0 →
        (attempts (main 4 true initOk nEvent nAbort colSinglet gen).trace : Int) = max nEvent 0) ∧
      ((attempts (main 4 true initOk nEvent nAbort colSinglet gen).trace : Int) = nEvent →
        (persisted (main 4 true initOk nEvent nAbort colSinglet gen).trace : Int) =
          nEvent - skips (main 4 true initOk nEvent nAbort colSinglet gen).trace -
            failures (main 4 true initOk nEvent nAbort colSinglet gen).trace) := by
  have h := eventLoop_accounting nEvent nAbort colSinglet gen nEvent.toNat (entryState [])
  simp [-List.countP_eq_zero, entryState] at h
  simp [-List.countP_eq_zero, main_trace, runLoop, entryState]
  omega

/-- C10 at a run of three iterations: a persisted photon event, a skipped
neutrino-only event and a failed attempt within the budget. -/
theorem iterations_accounting_witness :
    (attempts (main 4 true true 3 2 true (fun n =>
        if n = 0 then Attempt.mk true false [Particle.mk true 22 (1 : Int) 2 3 4]
        else if n = 1 then Attempt.mk true false [Particle.mk true 12 5 6 7 8]
        else Attempt.mk false false [])).trace : Int) = max 3 0 ∧
      (persisted (main 4 true true 3 2 true (fun n =>
        if n = 0 then Attempt.mk true false [Particle.mk true 22 (1 : Int) 2 3 4]
        else if n = 1 then Attempt.mk true false [Particle.mk true 12 5 6 7 8]
        else Attempt.mk false false [])).trace : Int) = 3 - 1 - 1 :=
  have h := iterations_accounting true 3 2 true (fun n =>
      if n = 0 then Attempt.mk true false [Particle.mk true 22 (1 : Int) 2 3 4]
      else if n = 1 then Attempt.mk true false [Particle.mk true 12 5 6 7 8]
      else Attempt.mk false false [])
  ⟨h.2.2.2.1 (by decide) (by decide), h.2.2.2.2 (by decide)⟩

/-! ## The empty final state -/

/-- C5: when the generator succeeds and the selection of lines 110-124 leaves
`fjInputs` empty, the iteration invokes no clustering, writes neither a jet
summary nor an event record, prints the skip notice, leaves the abort counter
unchanged, takes neither `break`, and ends in `continue`: the loop goes on with
the increment of `iEvent` and the test of the loop condition. -/
theorem empty_selection_skips_event {F : Type} (nEvent nAbort : Int) (colSinglet : Bool)
    (gen : Nat → Attempt F) (s : LoopState F) (fuel : Nat)
    (hn : (gen s.calls).next = true)
    (hs : fillFjInputs (gen s.calls).event s.fjInputs = []) :
    clusterings (loopBody nAbort colSinglet gen s).2.trace = clusterings s.trace ∧
      jetSummaries (loopBody nAbort colSinglet gen s).2.trace = jetSummaries s.trace ∧
      persisted (loopBody nAbort colSinglet gen s).2.trace = persisted s.trace ∧
      skips (loopBody nAbort colSinglet gen s).2.trace = skips s.trace + 1 ∧
      (loopBody nAbort colSinglet gen s).2.iAbort = s.iAbort ∧
      endOfFileExits (loopBody nAbort colSinglet gen s).2.trace = endOfFileExits s.trace ∧
      abortExits (loopBody nAbort colSinglet gen s).2.trace = abortExits s.trace ∧
      (loopBody nAbort colSinglet gen s).1 = Control.cont ∧
      (s.iEvent < nEvent →
        eventLoop nEvent nAbort colSinglet gen (fuel + 1) s =
          eventLoop nEvent nAbort colSinglet gen fuel
            (advance (loopBody nAbort colSinglet gen s).2)) := by
  rw [fillFjInputs_eq] at hs
  refine ⟨?_, ?_, ?_, ?_, ?_, ?_, ?_, ?_, ?_⟩
  · rw [loopBody_skip nAbort colSinglet gen s hn hs]
    cases colSinglet <;> simp
  · rw [loopBody_skip nAbort colSinglet gen s hn hs]
    cases colSinglet <;> simp
  · rw [loopBody_skip nAbort colSinglet gen s hn hs]
    cases colSinglet <;> simp
  · rw [loopBody_skip nAbort colSinglet gen s hn hs]
    cases colSinglet <;> simp
  · rw [loopBody_skip nAbort colSinglet gen s hn hs]
  · rw [loopBody_skip nAbort colSinglet gen s hn hs]
    cases colSinglet <;> simp
  · rw [loopBody_skip nAbort colSinglet gen s hn hs]
    cases colSinglet <;> simp
  · rw [loopBody_skip nAbort colSinglet gen s hn hs]
  · intro h
    rw [eventLoop_skip nEvent nAbort colSinglet gen fuel s h hn hs,
      loopBody_skip nAbort colSinglet gen s hn hs]
    rfl

/-- C5 at the first iteration of a run whose generator yields one final
neutrino of code 14 per event. -/
theorem empty_selection_skips_event_witness :
    persisted (loopBody 3 false (fun _ => Attempt.mk true false [Particle.mk true 14 (1 : Int) 2 3 4])
        (entryState [])).2.trace = 0 ∧
      (loopBody 3 false (fun _ => Attempt.mk true false [Particle.mk true 14 (1 : Int) 2 3 4])
        (entryState [])).2.iAbort = 0 ∧
      (loopBody 3 false (fun _ => Attempt.mk true false [Particle.mk true 14 (1 : Int) 2 3 4])
        (entryState [])).1 = Control.cont :=
  have h := empty_selection_skips_event 2 3 false
    (fun _ => Attempt.mk true false [Particle.mk true 14 (1 : Int) 2 3 4]) (entryState []) 1
    rfl (by decide)
  ⟨h.2.2.1, h.2.2.2.2.1, h.2.2.2.2.2.2.2.1⟩

/-! ## The abort counter -/

theorem eventLoop_iAbort {F : Type} (nEvent nAbort : Int) (colSinglet : Bool)
    (gen : Nat → Attempt F) (fuel : Nat) (s : LoopState F)
    (h : s.iAbort = countUpTo Attempt.isBudgetedFailure gen s.calls) :
    (eventLoop nEvent nAbort colSinglet gen fuel s).iAbort =
        countUpTo Attempt.isBudgetedFailure gen
          (eventLoop nEvent nAbort colSinglet gen fuel s).calls ∧
      attempts (eventLoop nEvent nAbort colSinglet gen fuel s).trace + s.calls =
        attempts s.trace + (eventLoop nEvent nAbort colSinglet gen fuel s).calls := by
  refine eventLoop_induction nEvent nAbort colSinglet gen
    (fun _ s r => s.iAbort = countUpTo Attempt.isBudgetedFailure gen s.calls →
      r.iAbort = countUpTo Attempt.isBudgetedFailure gen r.calls ∧
        attempts r.trace + s.calls = attempts s.trace + r.calls)
    ?_ ?_ ?_ ?_ ?_ ?_ ?_ fuel s h
  · intro s h; exact ⟨h, by omega⟩
  · intro fuel s _ h; exact ⟨h, by omega⟩
  · intro fuel s _ hn he h
    refine ⟨?_, ?_⟩
    · simp [countUpTo, Attempt.isBudgetedFailure, hn, he, h]
    · cases colSinglet <;> simp <;> omega
  · intro fuel s _ hn he _ h
    refine ⟨?_, ?_⟩
    · simp [countUpTo, Attempt.isBudgetedFailure, hn, he, h]
    · cases colSinglet <;> simp <;> omega
  · intro fuel s r _ hn he _ ih h
    have h2 := ih (by simp [countUpTo, Attempt.isBudgetedFailure, hn, he, h])
    refine ⟨h2.1, ?_⟩
    have h3 := h2.2
    cases colSinglet <;> simp at h3 ⊢ <;> omega
  · intro fuel s r _ hn _ ih h
    have h2 := ih (by simp [countUpTo, Attempt.isBudgetedFailure, hn, h])
    refine ⟨h2.1, ?_⟩
    have h3 := h2.2
    cases colSinglet <;> simp at h3 ⊢ <;> omega
  · intro fuel s r _ hn _ ih h
    have h2 := ih (by simp [countUpTo, Attempt.isBudgetedFailure, hn, h])
    refine ⟨h2.1, ?_⟩
    have h3 := h2.2
    cases colSinglet <;> by_cases h1 : s.iEvent < 1 <;> simp [h1] at h3 ⊢ <;> omega

/-- C3: the abort counter is cumulative over the run.  After any number `n` of
iterations of the loop from its entry state, `iAbort` is the number of generation
attempts made so far that failed without end of file.  An iteration whose attempt
succeeds, or fails at end of file, leaves the counter as it was; an iteration
whose attempt fails without end of file adds one to it, ends in `continue`
exactly when the incremented counter is below `nAbort` (the loop then goes on
with the next iteration), and ends in the `break` that prints the abort notice
exactly when the incremented counter has reached `nAbort` (the loop then ends in
the state the iteration leaves). -/
theorem abort_counter_is_cumulative {F : Type} (nEvent nAbort : Int) (colSinglet : Bool)
    (gen : Nat → Attempt F) (t : List (Action F)) (n fuel : Nat) (s : LoopState F) :
    (eventLoop nEvent nAbort colSinglet gen n (entryState t)).iAbort =
        countUpTo Attempt.isBudgetedFailure gen
          (eventLoop nEvent nAbort colSinglet gen n (entryState t)).calls ∧
      attempts (eventLoop nEvent nAbort colSinglet gen n (entryState t)).trace =
        attempts t + (eventLoop nEvent nAbort colSinglet gen n (entryState t)).calls ∧
      ((gen s.calls).next = true → (loopBody nAbort colSinglet gen s).2.iAbort = s.iAbort) ∧
      ((gen s.calls).next = false → (gen s.calls).atEndOfFile = true →
        (loopBody nAbort colSinglet gen s).2.iAbort = s.iAbort) ∧
      ((gen s.calls).next = false → (gen s.calls).atEndOfFile = false →
        (loopBody nAbort colSinglet gen s).2.iAbort = s.iAbort + 1 ∧
        ((loopBody nAbort colSinglet gen s).1 = Control.cont ↔
          (loopBody nAbort colSinglet gen s).2.iAbort < nAbort) ∧
        ((loopBody nAbort colSinglet gen s).1 = Control.brk ↔
          nAbort ≤ (loopBody nAbort colSinglet gen s).2.iAbort) ∧
        abortExits (loopBody nAbort colSinglet gen s).2.trace =
          abortExits s.trace +
            (if nAbort ≤ (loopBody nAbort colSinglet gen s).2.iAbort then 1 else 0) ∧
        (s.iEvent < nEvent → (loopBody nAbort colSinglet gen s).2.iAbort < nAbort →
          eventLoop nEvent nAbort colSinglet gen (fuel + 1) s =
            eventLoop nEvent nAbort colSinglet gen fuel
              (advance (loopBody nAbort colSinglet gen s).2)) ∧
        (s.iEvent < nEvent → nAbort ≤ (loopBody nAbort colSinglet gen s).2.iAbort →
          eventLoop nEvent nAbort colSinglet gen (fuel + 1) s =
            (loopBody nAbort colSinglet gen s).2)) := by
  have h := eventLoop_iAbort nEvent nAbort colSinglet gen n (entryState t) rfl
  refine ⟨h.1, ?_, ?_, ?_, ?_⟩
  · have h2 := h.2
    simp only [entryState] at h2 ⊢
    omega
  · intro hn
    by_cases hs : selectSpec (gen s.calls).event = []
    · rw [loopBody_skip nAbort colSinglet gen s hn hs]
    · rw [loopBody_persist nAbort colSinglet gen s hn hs]
  · intro hn he
    rw [loopBody_endOfFile nAbort colSinglet gen s hn he]
  · intro hn he
    by_cases hb : s.iAbort + 1 < nAbort
    · rw [loopBody_retry nAbort colSinglet gen s hn he hb]
      refine ⟨rfl, ?_, ?_, ?_, ?_, ?_⟩
      · simp [hb]
      · simp [hb]
      · have hb2 : ¬ nAbort ≤ s.iAbort + 1 := by omega
        cases colSinglet <;> simp [hb2]
      · intro hlt _
        rw [eventLoop_retry nEvent nAbort colSinglet gen fuel s hlt hn he hb]
        rfl
      · intro _ hge
        simp only at hge
        omega
    · rw [loopBody_abort nAbort colSinglet gen s hn he hb]
      refine ⟨rfl, ?_, ?_, ?_, ?_, ?_⟩
      · simp [hb]
      · simp only [true_iff]
        omega
      · have hb2 : nAbort ≤ s.iAbort + 1 := by omega
        cases colSinglet <;> simp [hb2]
      · intro _ hlt
        simp only at hlt
        omega
      · intro hlt _
        rw [eventLoop_abort nEvent nAbort colSinglet gen fuel s hlt hn he hb]
        rfl

/-- C3 at the entry state of a run with `nAbort = 2` whose generator always
fails without end of file: the first failure is written off. -/
theorem abort_counter_is_cumulative_witness :
    (loopBody 2 true (fun _ => Attempt.mk false false ([] : List (Particle Int)))
        (entryState [])).2.iAbort = 0 + 1 ∧
      ((loopBody 2 true (fun _ => Attempt.mk false false ([] : List (Particle Int)))
          (entryState [])).1 = Control.cont ↔
        (loopBody 2 true (fun _ => Attempt.mk false false ([] : List (Particle Int)))
          (entryState [])).2.iAbort < 2) :=
  have h := (abort_counter_is_cumulative 5 2 true
    (fun _ => Attempt.mk false false ([] : List (Particle Int))) [] 0 0 (entryState [])).2.2.2.2
    rfl rfl
  ⟨h.1, h.2.1⟩

/-! ## A generator that always fails -/

theorem budget_min_step (a b : Int) (ha : 0 < a) (hb : 1 < b) :
    min a.toNat (max b 1).toNat = min (a - 1).toNat (max (b - 1) 1).toNat + 1 := by
  omega

theorem budget_min_last (a b : Int) (ha : 0 < a) (hb : ¬ 1 < b) :
    min a.toNat (max b 1).toNat = 1 := by
  omega

theorem budget_min_none (a b : Int) (ha : ¬ 0 < a) :
    min a.toNat (max b 1).toNat = 0 := by
  omega

theorem budget_ite_step (a b : Int) (hb : 1 < b) :
    (if max b 1 ≤ a then 1 else 0 : Nat) = if max (b - 1) 1 ≤ a - 1 then 1 else 0 := by
  by_cases h : max b 1 ≤ a
  · have h2 : max (b - 1) 1 ≤ a - 1 := by omega
    rw [if_pos h, if_pos h2]
  · have h2 : ¬ max (b - 1) 1 ≤ a - 1 := by omega
    rw [if_neg h, if_neg h2]

theorem eventLoop_all_failures {F : Type} (nEvent nAbort : Int) (colSinglet : Bool)
    (gen : Nat → Attempt F)
    (hfail : ∀ n, (gen n).next = false ∧ (gen n).atEndOfFile = false)
    (fuel : Nat) (s : LoopState F) (hfuel : (nEvent - s.iEvent).toNat ≤ fuel) :
    persisted (eventLoop nEvent nAbort colSinglet gen fuel s).trace = persisted s.trace ∧
      attempts (eventLoop nEvent nAbort colSinglet gen fuel s).trace =
        attempts s.trace + min (nEvent - s.iEvent).toNat (max (nAbort - s.iAbort) 1).toNat ∧
      failures (eventLoop nEvent nAbort colSinglet gen fuel s).trace =
        failures s.trace + min (nEvent - s.iEvent).toNat (max (nAbort - s.iAbort) 1).toNat ∧
      abortExits (eventLoop nEvent nAbort colSinglet gen fuel s).trace =
        abortExits s.trace + (if max (nAbort - s.iAbort) 1 ≤ nEvent - s.iEvent then 1 else 0) := by
  refine eventLoop_induction nEvent nAbort colSinglet gen
    (fun fuel s r => (nEvent - s.iEvent).toNat ≤ fuel →
      persisted r.trace = persisted s.trace ∧
      attempts r.trace =
        attempts s.trace + min (nEvent - s.iEvent).toNat (max (nAbort - s.iAbort) 1).toNat ∧
      failures r.trace =
        failures s.trace + min (nEvent - s.iEvent).toNat (max (nAbort - s.iAbort) 1).toNat ∧
      abortExits r.trace =
        abortExits s.trace + (if max (nAbort - s.iAbort) 1 ≤ nEvent - s.iEvent then 1 else 0))
    ?_ ?_ ?_ ?_ ?_ ?_ ?_ fuel s hfuel
  · intro s h
    have ha : ¬ 0 < nEvent - s.iEvent := by omega
    have h0 : ¬ max (nAbort - s.iAbort) 1 ≤ nEvent - s.iEvent := by omega
    rw [if_neg h0, budget_min_none _ _ ha]
    exact ⟨rfl, rfl, rfl, rfl⟩
  · intro fuel s h _
    have ha : ¬ 0 < nEvent - s.iEvent := by omega
    have h0 : ¬ max (nAbort - s.iAbort) 1 ≤ nEvent - s.iEvent := by omega
    rw [if_neg h0, budget_min_none _ _ ha]
    exact ⟨rfl, rfl, rfl, rfl⟩
  · intro fuel s _ _ he
    rw [(hfail s.calls).2] at he
    exact absurd he (by decide)
  · intro fuel s h _ _ hb _
    have ha : 0 < nEvent - s.iEvent := by omega
    have hb2 : ¬ 1 < nAbort - s.iAbort := by omega
    have h0 : max (nAbort - s.iAbort) 1 ≤ nEvent - s.iEvent := by omega
    rw [if_pos h0, budget_min_last _ _ ha hb2]
    cases colSinglet <;> simp [-List.countP_eq_zero]
  · intro fuel s r h _ _ hb ih hf
    have h2 := ih (by simp only [stateRetry]; omega)
    have ha : 0 < nEvent - s.iEvent := by omega
    have hb2 : 1 < nAbort - s.iAbort := by omega
    have e1 : nEvent - (s.iEvent + 1) = nEvent - s.iEvent - 1 := by omega
    have e2 : nAbort - (s.iAbort + 1) = nAbort - s.iAbort - 1 := by omega
    simp only [stateRetry, e1, e2] at h2
    rw [budget_min_step _ _ ha hb2, budget_ite_step _ _ hb2]
    generalize min (nEvent - s.iEvent - 1).toNat (max (nAbort - s.iAbort - 1) 1).toNat = m at h2 ⊢
    generalize (if max (nAbort - s.iAbort - 1) 1 ≤ nEvent - s.iEvent - 1 then 1 else 0 : Nat) = x
      at h2 ⊢
    cases colSinglet <;> simp [-List.countP_eq_zero] at h2 ⊢ <;> omega
  · intro fuel s r _ hn
    rw [(hfail s.calls).1] at hn
    exact absurd hn (by decide)
  · intro fuel s r _ hn
    rw [(hfail s.calls).1] at hn
    exact absurd hn (by decide)

/-- C2, as the code has it: if the generator fails on every attempt without
end of file, the run persists no event and makes exactly
`min(max(nEvent, 0), max(nAbort, 1))` attempts, all failed; when the target count
allows `max(nAbort, 1)` attempts the loop is left by the abort `break` on the
attempt that takes the counter to `nAbort`, otherwise it ends on the target count
without an abort. -/
theorem all_failures_run {F : Type} (initOk : Bool) (nEvent nAbort : Int)
    (colSinglet : Bool) (gen : Nat → Attempt F)
    (hfail : ∀ n, (gen n).next = false ∧ (gen n).atEndOfFile = false) :
    persisted (main 4 true initOk nEvent nAbort colSinglet gen).trace = 0 ∧
      (attempts (main 4 true initOk nEvent nAbort colSinglet gen).trace : Int) =
        min (max nEvent 0) (max nAbort 1) ∧
      failures (main 4 true initOk nEvent nAbort colSinglet gen).trace =
        attempts (main 4 true initOk nEvent nAbort colSinglet gen).trace ∧
      abortExits (main 4 true initOk nEvent nAbort colSinglet gen).trace =
        (if max nAbort 1 ≤ nEvent then 1 else 0) := by
  have h := eventLoop_all_failures nEvent nAbort colSinglet gen hfail nEvent.toNat
    (entryState []) (by simp [entryState])
  have e1 : nEvent - (entryState ([] : List (Action F))).iEvent = nEvent := by
    simp [entryState]
  have e2 : nAbort - (entryState ([] : List (Action F))).iAbort = nAbort := by
    simp [entryState]
  simp only [e1, e2] at h
  have hm : ((min nEvent.toNat (max nAbort 1).toNat : Nat) : Int) =
      min (max nEvent 0) (max nAbort 1) := by omega
  rw [← hm]
  generalize min nEvent.toNat (max nAbort 1).toNat = m at h ⊢
  generalize (if max nAbort 1 ≤ nEvent then 1 else 0 : Nat) = x at h ⊢
  simp [-List.countP_eq_zero, entryState] at h
  simp [-List.countP_eq_zero, main_trace, runLoop, entryState]
  omega

/-- C2, as the code has it, at a target of 10 events and `nAbort = 3`. -/
theorem all_failures_run_witness :
    persisted (main 4 true true 10 3 true
        (fun _ => Attempt.mk false false ([] : List (Particle Int)))).trace = 0 ∧
      (attempts (main 4 true true 10 3 true
        (fun _ => Attempt.mk false false ([] : List (Particle Int)))).trace : Int) = 3 :=
  have h := all_failures_run true 10 3 true
    (fun _ => Attempt.mk false false ([] : List (Particle Int))) (fun _ => ⟨rfl, rfl⟩)
  ⟨h.1, h.2.1⟩

/-- C2 as stated fails: with a target of 10 events and `nAbort = 2`, a generator
that always fails without end of file is tried twice, not `2 + 1` times; and
with a target of 1 event and `nAbort = 5` it is tried once, not `5 + 1` times. -/
theorem all_failures_run_counterexample :
    attempts (main 4 true true 10 2 true
        (fun _ => Attempt.mk false false ([] : List (Particle Int)))).trace = 2 ∧
      attempts (main 4 true true 10 2 true
        (fun _ => Attempt.mk false false ([] : List (Particle Int)))).trace ≠ 2 + 1 ∧
      attempts (main 4 true true 1 5 true
        (fun _ => Attempt.mk false false ([] : List (Particle Int)))).trace = 1 ∧
      attempts (main 4 true true 1 5 true
        (fun _ => Attempt.mk false false ([] : List (Particle Int)))).trace ≠ 5 + 1 := by
  decide

/-! ## End of file -/

theorem countUpTo_eq_zero {F : Type} (p : Attempt F → Bool) (gen : Nat → Attempt F) (n : Nat)
    (h : ∀ i, i < n → p (gen i) = false) : countUpTo p gen n = 0 := by
  induction n with
  | zero => rfl
  | succ n ih =>
    simp only [countUpTo, h n (Nat.lt_succ_self n)]
    rw [ih (fun i hi => h i (Nat.lt_succ_of_lt hi))]
    rfl

theorem countUpTo_succ_le {F : Type} (p : Attempt F → Bool) (gen : Nat → Attempt F) (m n : Nat)
    (h : m < n) (hp : p (gen m) = true) : countUpTo p gen m + 1 ≤ countUpTo p gen n := by
  have h1 := countUpTo_mono p gen (m + 1) n h
  simp only [countUpTo, hp, if_true] at h1
  exact h1

theorem eventLoop_endOfFile_at {F : Type} (nEvent nAbort : Int) (colSinglet : Bool)
    (gen : Nat → Attempt F) (j : Nat) (hj : (j : Int) < nEvent)
    (hnj : (gen j).next = false) (hej : (gen j).atEndOfFile = true)
    (hpre : ∀ i, i < j → (gen i).isEndOfFile = false)
    (hbud : countUpTo Attempt.isBudgetedFailure gen j = 0 ∨
      (countUpTo Attempt.isBudgetedFailure gen j : Int) < nAbort)
    (fuel : Nat) (s : LoopState F) (h1 : s.iEvent = s.calls)
    (h2 : s.iAbort = countUpTo Attempt.isBudgetedFailure gen s.calls)
    (h3 : s.calls ≤ j) (h4 : j < fuel + s.calls) :
    persisted (eventLoop nEvent nAbort colSinglet gen fuel s).trace +
          countUpTo Attempt.isPersistable gen s.calls =
        persisted s.trace + countUpTo Attempt.isPersistable gen j ∧
      skips (eventLoop nEvent nAbort colSinglet gen fuel s).trace +
          countUpTo Attempt.isEmptyFinalState gen s.calls =
        skips s.trace + countUpTo Attempt.isEmptyFinalState gen j ∧
      attempts (eventLoop nEvent nAbort colSinglet gen fuel s).trace + s.calls =
        attempts s.trace + j + 1 ∧
      endOfFileExits (eventLoop nEvent nAbort colSinglet gen fuel s).trace =
        endOfFileExits s.trace + 1 ∧
      abortExits (eventLoop nEvent nAbort colSinglet gen fuel s).trace = abortExits s.trace := by
  refine eventLoop_induction nEvent nAbort colSinglet gen
    (fun fuel s r => s.iEvent = s.calls →
      s.iAbort = countUpTo Attempt.isBudgetedFailure gen s.calls →
      s.calls ≤ j → j < fuel + s.calls →
      persisted r.trace + countUpTo Attempt.isPersistable gen s.calls =
          persisted s.trace + countUpTo Attempt.isPersistable gen j ∧
        skips r.trace + countUpTo Attempt.isEmptyFinalState gen s.calls =
          skips s.trace + countUpTo Attempt.isEmptyFinalState gen j ∧
        attempts r.trace + s.calls = attempts s.trace + j + 1 ∧
        endOfFileExits r.trace = endOfFileExits s.trace + 1 ∧
        abortExits r.trace = abortExits s.trace)
    ?_ ?_ ?_ ?_ ?_ ?_ ?_ fuel s h1 h2 h3 h4
  · intro s _ _ h3 h4
    omega
  · intro fuel s h h1 _ h3 _
    omega
  · intro fuel s _ hn he _ _ h3 _
    have hc : s.calls = j := by
      by_contra hne
      have hlt : s.calls < j := by omega
      have := hpre s.calls hlt
      simp [Attempt.isEndOfFile, hn, he] at this
    rw [← hc]
    cases colSinglet <;> simp [-List.countP_eq_zero] <;> omega
  · intro fuel s _ hn he hb _ h2 h3 _
    exfalso
    have hne : s.calls ≠ j := by
      intro hc
      rw [hc, hej] at he
      exact absurd he (by decide)
    have hlt : s.calls < j := by omega
    have hle := countUpTo_succ_le Attempt.isBudgetedFailure gen s.calls j hlt
      (by simp [Attempt.isBudgetedFailure, hn, he])
    omega
  · intro fuel s r _ hn he hb ih h1 h2 h3 h4
    have hne : s.calls ≠ j := by
      intro hc
      rw [hc, hej] at he
      exact absurd he (by decide)
    have h5 := ih (by simp only [stateRetry]; omega)
      (by simp [countUpTo, Attempt.isBudgetedFailure, hn, he, h2])
      (by simp only [stateRetry]; omega) (by simp only [stateRetry]; omega)
    simp only [stateRetry, countUpTo, Attempt.isPersistable, Attempt.isEmptyFinalState, hn,
      Bool.false_and, Bool.false_eq_true, if_false, Nat.add_zero] at h5
    cases colSinglet <;> simp [-List.countP_eq_zero] at h5 ⊢ <;> omega
  · intro fuel s r _ hn hs ih h1 h2 h3 h4
    have hne : s.calls ≠ j := by
      intro hc
      rw [hc, hnj] at hn
      exact absurd hn (by decide)
    have h5 := ih (by simp only [stateSkip]; omega)
      (by simp [countUpTo, Attempt.isBudgetedFailure, hn, h2])
      (by simp only [stateSkip]; omega) (by simp only [stateSkip]; omega)
    simp only [stateSkip, countUpTo, Attempt.isPersistable, Attempt.isEmptyFinalState, hn, hs,
      List.isEmpty_nil, Bool.true_and, Bool.not_true, Bool.false_eq_true, if_false, if_true,
      Nat.add_zero] at h5
    cases colSinglet <;> simp [-List.countP_eq_zero] at h5 ⊢ <;> omega
  · intro fuel s r _ hn hs ih h1 h2 h3 h4
    have hne : s.calls ≠ j := by
      intro hc
      rw [hc, hnj] at hn
      exact absurd hn (by decide)
    have hs2 : (selectSpec (gen s.calls).event).isEmpty = false := by
      simpa [List.isEmpty_iff] using hs
    have h5 := ih (by simp only [statePersist]; omega)
      (by simp [countUpTo, Attempt.isBudgetedFailure, hn, h2])
      (by simp only [statePersist]; omega) (by simp only [statePersist]; omega)
    simp only [statePersist, countUpTo, Attempt.isPersistable, Attempt.isEmptyFinalState, hn, hs2,
      Bool.true_and, Bool.not_false, Bool.false_eq_true, if_false, if_true,
      Nat.add_zero] at h5
    cases colSinglet <;> by_cases h6 : s.iEvent < 1 <;>
      simp [-List.countP_eq_zero, h6] at h5 ⊢ <;> omega

/-- C4, as the code has it: let attempt number `j + 1` (with `j < nEvent`) be
the first on which the generator fails at end of file, the failures before it
staying within the budget (none of them, or fewer than `nAbort`), so that the
attempt is made.  Then the run persists exactly the events of the first `j`
attempts that have a non-empty selection, that is `j` minus the
empty-final-state skips minus the failed attempts among them; the signalling
attempt is the last attempt and produces no record; the loop is left by the
end-of-file `break`, not by the abort `break`; and the process exits with
code 0. -/
theorem end_of_file_run {F : Type} (initOk : Bool) (nEvent nAbort : Int) (colSinglet : Bool)
    (gen : Nat → Attempt F) (j : Nat) (hj : (j : Int) < nEvent)
    (hnj : (gen j).next = false) (hej : (gen j).atEndOfFile = true)
    (hpre : ∀ i, i < j → (gen i).isEndOfFile = false)
    (hbud : countUpTo Attempt.isBudgetedFailure gen j = 0 ∨
      (countUpTo Attempt.isBudgetedFailure gen j : Int) < nAbort) :
    persisted (main 4 true initOk nEvent nAbort colSinglet gen).trace =
        countUpTo Attempt.isPersistable gen j ∧
      (persisted (main 4 true initOk nEvent nAbort colSinglet gen).trace : Int) =
        j - countUpTo Attempt.isEmptyFinalState gen j -
          countUpTo Attempt.isBudgetedFailure gen j ∧
      skips (main 4 true initOk nEvent nAbort colSinglet gen).trace =
        countUpTo Attempt.isEmptyFinalState gen j ∧
      attempts (main 4 true initOk nEvent nAbort colSinglet gen).trace = j + 1 ∧
      endOfFileExits (main 4 true initOk nEvent nAbort colSinglet gen).trace = 1 ∧
      abortExits (main 4 true initOk nEvent nAbort colSinglet gen).trace = 0 ∧
      (main 4 true initOk nEvent nAbort colSinglet gen).exitCode = 0 := by
  have h := eventLoop_endOfFile_at nEvent nAbort colSinglet gen j hj hnj hej hpre hbud
    nEvent.toNat (entryState []) rfl rfl (Nat.zero_le j) (by simp only [entryState]; omega)
  have hpart := countUpTo_partition gen j
  have hz := countUpTo_eq_zero Attempt.isEndOfFile gen j hpre
  simp [-List.countP_eq_zero, entryState, countUpTo] at h
  simp [-List.countP_eq_zero, main_trace, runLoop, entryState]
  refine ⟨?_, ?_, ?_, ?_, ?_, ?_, ?_⟩
  · omega
  · omega
  · omega
  · omega
  · omega
  · omega
  · simp [main]

/-- C4, as the code has it, at a run whose first attempt yields a photon event
and whose second attempt fails at end of file. -/
theorem end_of_file_run_witness :
    persisted (main 4 true true 5 3 true (fun n =>
        if n = 0 then Attempt.mk true false [Particle.mk true 22 (1 : Int) 2 3 4]
        else Attempt.mk false true [])).trace = 1 ∧
      attempts (main 4 true true 5 3 true (fun n =>
        if n = 0 then Attempt.mk true false [Particle.mk true 22 (1 : Int) 2 3 4]
        else Attempt.mk false true [])).trace = 1 + 1 :=
  have h := end_of_file_run true 5 3 true (fun n =>
      if n = 0 then Attempt.mk true false [Particle.mk true 22 (1 : Int) 2 3 4]
      else Attempt.mk false true []) 1 (by decide) rfl rfl
    (fun i hi => by
      have h0 : i = 0 := by omega
      subst h0
      rfl)
    (Or.inl (by decide))
  ⟨h.1, h.2.2.2.1⟩

/-- C4 as stated fails: with a target of 5 events, the generator reports end of
file on attempt `k = 2` after an attempt that gave a neutrino-only event (or
after a failed attempt within the budget), and the run persists no event, not
`k - 1 = 1`. -/
theorem end_of_file_run_counterexample :
    (attempts (main 4 true true 5 3 true (fun n =>
        if n = 0 then Attempt.mk true false [Particle.mk true 12 (1 : Int) 2 3 4]
        else Attempt.mk false true [])).trace = 2 ∧
      endOfFileExits (main 4 true true 5 3 true (fun n =>
        if n = 0 then Attempt.mk true false [Particle.mk true 12 (1 : Int) 2 3 4]
        else Attempt.mk false true [])).trace = 1 ∧
      persisted (main 4 true true 5 3 true (fun n =>
        if n = 0 then Attempt.mk true false [Particle.mk true 12 (1 : Int) 2 3 4]
        else Attempt.mk false true [])).trace ≠ 2 - 1) ∧
    (attempts (main 4 true true 5 3 true (fun n =>
        if n = 0 then Attempt.mk false false ([] : List (Particle Int))
        else Attempt.mk false true [])).trace = 2 ∧
      endOfFileExits (main 4 true true 5 3 true (fun n =>
        if n = 0 then Attempt.mk false false ([] : List (Particle Int))
        else Attempt.mk false true [])).trace = 1 ∧
      persisted (main 4 true true 5 3 true (fun n =>
        if n = 0 then Attempt.mk false false ([] : List (Particle Int))
        else Attempt.mk false true [])).trace ≠ 2 - 1) := by
  decide

/-! ## The first-event dump -/

theorem eventLoop_no_dump {F : Type} (nEvent nAbort : Int) (colSinglet : Bool)
    (gen : Nat → Attempt F) (fuel : Nat) (s : LoopState F) (h : 1 ≤ s.iEvent) :
    dumps (eventLoop nEvent nAbort colSinglet gen fuel s).trace = dumps s.trace := by
  refine eventLoop_induction nEvent nAbort colSinglet gen
    (fun _ s r => 1 ≤ s.iEvent → dumps r.trace = dumps s.trace)
    ?_ ?_ ?_ ?_ ?_ ?_ ?_ fuel s h
  · intro s _; rfl
  · intro fuel s _ _; rfl
  · intro fuel s _ _ _ _
    cases colSinglet <;> simp [-List.countP_eq_zero]
  · intro fuel s _ _ _ _ _
    cases colSinglet <;> simp [-List.countP_eq_zero]
  · intro fuel s r _ _ _ _ ih h1
    have h2 := ih (by simp only [stateRetry]; omega)
    cases colSinglet <;> simp [-List.countP_eq_zero] at h2 ⊢ <;> omega
  · intro fuel s r _ _ _ ih h1
    have h2 := ih (by simp only [stateSkip]; omega)
    cases colSinglet <;> simp [-List.countP_eq_zero] at h2 ⊢ <;> omega
  · intro fuel s r _ _ _ ih h1
    have h2 := ih (by simp only [statePersist]; omega)
    have h3 : ¬ s.iEvent < 1 := by omega
    cases colSinglet <;> simp [-List.countP_eq_zero, h3] at h2 ⊢ <;> omega

theorem eventLoop_dumps_le {F : Type} (nEvent nAbort : Int) (colSinglet : Bool)
    (gen : Nat → Attempt F) (fuel : Nat) (s : LoopState F) :
    dumps (eventLoop nEvent nAbort colSinglet gen fuel s).trace + persisted s.trace ≤
      persisted (eventLoop nEvent nAbort colSinglet gen fuel s).trace + dumps s.trace := by
  refine eventLoop_induction nEvent nAbort colSinglet gen
    (fun _ s r => dumps r.trace + persisted s.trace ≤ persisted r.trace + dumps s.trace)
    ?_ ?_ ?_ ?_ ?_ ?_ ?_ fuel s
  · intro s; omega
  · intro fuel s _; omega
  · intro fuel s _ _ _
    cases colSinglet <;> simp [-List.countP_eq_zero] <;> omega
  · intro fuel s _ _ _ _
    cases colSinglet <;> simp [-List.countP_eq_zero] <;> omega
  · intro fuel s r _ _ _ _ ih
    cases colSinglet <;> simp [-List.countP_eq_zero] at ih ⊢ <;> omega
  · intro fuel s r _ _ _ ih
    cases colSinglet <;> simp [-List.countP_eq_zero] at ih ⊢ <;> omega
  · intro fuel s r _ _ _ ih
    cases colSinglet <;> by_cases h1 : s.iEvent < 1 <;>
      simp [-List.countP_eq_zero, h1] at ih ⊢ <;> omega

theorem loopBody_dumps {F : Type} (nAbort : Int) (colSinglet : Bool) (gen : Nat → Attempt F)
    (s : LoopState F) :
    dumps (loopBody nAbort colSinglet gen s).2.trace =
      dumps s.trace +
        (if s.iEvent < 1 ∧ (gen s.calls).isPersistable = true then 1 else 0) := by
  by_cases hn : (gen s.calls).next = true
  · by_cases hs : selectSpec (gen s.calls).event = []
    · rw [loopBody_skip nAbort colSinglet gen s hn hs]
      cases colSinglet <;> simp [-List.countP_eq_zero, Attempt.isPersistable, hn, hs]
    · rw [loopBody_persist nAbort colSinglet gen s hn hs]
      have hs2 : (selectSpec (gen s.calls).event).isEmpty = false := by
        simpa [List.isEmpty_iff] using hs
      cases colSinglet <;> by_cases h1 : s.iEvent < 1 <;>
        simp [-List.countP_eq_zero, Attempt.isPersistable, hn, hs2, h1]
  · have hn2 : (gen s.calls).next = false := by simpa using hn
    cases he : (gen s.calls).atEndOfFile with
    | true =>
      rw [loopBody_endOfFile nAbort colSinglet gen s hn2 he]
      cases colSinglet <;> simp [-List.countP_eq_zero, Attempt.isPersistable, hn2]
    | false =>
      by_cases hb : s.iAbort + 1 < nAbort
      · rw [loopBody_retry nAbort colSinglet gen s hn2 he hb]
        cases colSinglet <;> simp [-List.countP_eq_zero, Attempt.isPersistable, hn2]
      · rw [loopBody_abort nAbort colSinglet gen s hn2 he hb]
        cases colSinglet <;> simp [-List.countP_eq_zero, Attempt.isPersistable, hn2]

theorem runLoop_dumps {F : Type} (nEvent nAbort : Int) (colSinglet : Bool)
    (gen : Nat → Attempt F) :
    dumps (runLoop nEvent nAbort colSinglet gen []).trace =
      if 0 < nEvent ∧ (gen 0).isPersistable = true then 1 else 0 := by
  unfold runLoop
  by_cases h0 : 0 < nEvent
  · obtain ⟨m, hm⟩ : ∃ m, nEvent.toNat = m + 1 := ⟨nEvent.toNat - 1, by omega⟩
    have hlt : (entryState ([] : List (Action F))).iEvent < nEvent := h0
    rw [hm]
    by_cases hn : (gen 0).next = true
    · have hn2 : (gen (entryState ([] : List (Action F))).calls).next = true := hn
      by_cases hs : selectSpec (gen 0).event = []
      · rw [eventLoop_skip nEvent nAbort colSinglet gen m _ hlt hn2 hs,
          eventLoop_no_dump nEvent nAbort colSinglet gen m _ (by simp [entryState])]
        cases colSinglet <;>
          simp [-List.countP_eq_zero, entryState, Attempt.isPersistable, hn, hs]
      · have hs2 : (selectSpec (gen 0).event).isEmpty = false := by
          simpa [List.isEmpty_iff] using hs
        rw [eventLoop_persist nEvent nAbort colSinglet gen m _ hlt hn2 hs,
          eventLoop_no_dump nEvent nAbort colSinglet gen m _ (by simp [entryState])]
        cases colSinglet <;>
          simp [-List.countP_eq_zero, entryState, Attempt.isPersistable, hn, hs2, h0]
    · have hn1 : (gen 0).next = false := by simpa using hn
      have hn2 : (gen (entryState ([] : List (Action F))).calls).next = false := hn1
      cases he : (gen 0).atEndOfFile with
      | true =>
        rw [eventLoop_endOfFile nEvent nAbort colSinglet gen m _ hlt hn2 he]
        cases colSinglet <;>
          simp [-List.countP_eq_zero, entryState, Attempt.isPersistable, hn1]
      | false =>
        by_cases hb : (entryState ([] : List (Action F))).iAbort + 1 < nAbort
        · rw [eventLoop_retry nEvent nAbort colSinglet gen m _ hlt hn2 he hb,
            eventLoop_no_dump nEvent nAbort colSinglet gen m _ (by simp [entryState])]
          cases colSinglet <;>
            simp [-List.countP_eq_zero, entryState, Attempt.isPersistable, hn1]
        · rw [eventLoop_abort nEvent nAbort colSinglet gen m _ hlt hn2 he hb]
          cases colSinglet <;>
            simp [-List.countP_eq_zero, entryState, Attempt.isPersistable, hn1]
  · have hz : nEvent.toNat = 0 := by omega
    rw [hz, eventLoop_zero]
    simp [-List.countP_eq_zero, entryState, h0]

/-- C7, as the code has it: an iteration emits the detailed dump if and only
if it runs with `iEvent < 1` (it is the first iteration of the loop) and persists
its event; so a run emits the dump once if its first iteration persists an event
(which is then the first persisted event of the run) and never otherwise: not
for a skipped or failed attempt, not in any later iteration, and not at all when
the first iteration persists nothing. -/
theorem dump_only_in_first_iteration {F : Type} (initOk : Bool) (nEvent nAbort : Int)
    (colSinglet : Bool) (gen : Nat → Attempt F) (s : LoopState F) :
    dumps (loopBody nAbort colSinglet gen s).2.trace =
        dumps s.trace +
          (if s.iEvent < 1 ∧ (gen s.calls).isPersistable = true then 1 else 0) ∧
      dumps (main 4 true initOk nEvent nAbort colSinglet gen).trace =
        (if 0 < nEvent ∧ (gen 0).isPersistable = true then 1 else 0) ∧
      dumps (main 4 true initOk nEvent nAbort colSinglet gen).trace ≤
        persisted (main 4 true initOk nEvent nAbort colSinglet gen).trace := by
  have hd := runLoop_dumps nEvent nAbort colSinglet gen
  have hm : dumps (main 4 true initOk nEvent nAbort colSinglet gen).trace =
      dumps (runLoop nEvent nAbort colSinglet gen []).trace := by
    simp [-List.countP_eq_zero, main_trace]
  have hp : persisted (main 4 true initOk nEvent nAbort colSinglet gen).trace =
      persisted (runLoop nEvent nAbort colSinglet gen []).trace := by
    simp [-List.countP_eq_zero, main_trace]
  have hle := eventLoop_dumps_le nEvent nAbort colSinglet gen nEvent.toNat (entryState [])
  refine ⟨loopBody_dumps nAbort colSinglet gen s, hm.trans hd, ?_⟩
  rw [hm, hp]
  simp [-List.countP_eq_zero, entryState] at hle
  simpa [-List.countP_eq_zero, runLoop, entryState] using hle

/-- C7 as stated fails: in a run whose first attempt fails within the budget
and whose second attempt is persisted, that second iteration persists the first
persisted event of the run and no dump is emitted; the same holds when the first
event is skipped for its empty final state. -/
theorem dump_only_in_first_iteration_counterexample :
    (persisted (main 4 true true 2 3 true (fun n =>
        if n = 0 then Attempt.mk false false []
        else Attempt.mk true false [Particle.mk true 22 (1 : Int) 2 3 4])).trace = 1 ∧
      dumps (main 4 true true 2 3 true (fun n =>
        if n = 0 then Attempt.mk false false []
        else Attempt.mk true false [Particle.mk true 22 (1 : Int) 2 3 4])).trace = 0) ∧
    (persisted (main 4 true true 2 3 true (fun n =>
        if n = 0 then Attempt.mk true false [Particle.mk true 16 (5 : Int) 6 7 8]
        else Attempt.mk true false [Particle.mk true 22 (1 : Int) 2 3 4])).trace = 1 ∧
      dumps (main 4 true true 2 3 true (fun n =>
        if n = 0 then Attempt.mk true false [Particle.mk true 16 (5 : Int) 6 7 8]
        else Attempt.mk true false [Particle.mk true 22 (1 : Int) 2 3 4])).trace = 0) := by
  decide

/-! ## Generator initialisation and the startup checks -/

theorem eventLoop_first_attempt {F : Type} (nEvent nAbort : Int) (colSinglet : Bool)
    (gen : Nat → Attempt F) (fuel : Nat) (s : LoopState F) (h : s.iEvent < nEvent) :
    attempts s.trace + 1 ≤ attempts (eventLoop nEvent nAbort colSinglet gen (fuel + 1) s).trace := by
  by_cases hn : (gen s.calls).next = true
  · by_cases hs : selectSpec (gen s.calls).event = []
    · rw [eventLoop_skip nEvent nAbort colSinglet gen fuel s h hn hs]
      have h2 := (eventLoop_accounting nEvent nAbort colSinglet gen fuel
        (stateSkip colSinglet s)).2.2.1
      cases colSinglet <;> simp [-List.countP_eq_zero] at h2 ⊢ <;> omega
    · rw [eventLoop_persist nEvent nAbort colSinglet gen fuel s h hn hs]
      have h2 := (eventLoop_accounting nEvent nAbort colSinglet gen fuel
        (statePersist colSinglet gen s)).2.2.1
      cases colSinglet <;> by_cases h1 : s.iEvent < 1 <;>
        simp [-List.countP_eq_zero, h1] at h2 ⊢ <;> omega
  · have hn2 : (gen s.calls).next = false := by simpa using hn
    cases he : (gen s.calls).atEndOfFile with
    | true =>
      rw [eventLoop_endOfFile nEvent nAbort colSinglet gen fuel s h hn2 he]
      cases colSinglet <;> simp [-List.countP_eq_zero]
    | false =>
      by_cases hb : s.iAbort + 1 < nAbort
      · rw [eventLoop_retry nEvent nAbort colSinglet gen fuel s h hn2 he hb]
        have h2 := (eventLoop_accounting nEvent nAbort colSinglet gen fuel
          (stateRetry colSinglet s)).2.2.1
        cases colSinglet <;> simp [-List.countP_eq_zero] at h2 ⊢ <;> omega
      · rw [eventLoop_abort nEvent nAbort colSinglet gen fuel s h hn2 he hb]
        cases colSinglet <;> simp [-List.countP_eq_zero]

/-- C9, as the code has it: the value returned by `pythia.init()` is not
inspected.  A run that passes the two startup checks exits with code 0 whatever
that value, performs after the initialisation the same actions as a run whose
initialisation succeeded, and enters the loop (at least one seeding and one
generation attempt) as soon as `nEvent > 0`.  What is fatal at startup is a
wrong argument count or a missing input file: the process then exits with
code 1 and nothing is done, no initialisation and no iteration. -/
theorem init_result_not_inspected {F : Type} (argc : Int) (fileFound initOk : Bool)
    (nEvent nAbort : Int) (colSinglet : Bool) (gen : Nat → Attempt F) :
    (main 4 true initOk nEvent nAbort colSinglet gen).exitCode = 0 ∧
      (main 4 true initOk nEvent nAbort colSinglet gen).trace =
        Action.init initOk :: (main 4 true true nEvent nAbort colSinglet gen).trace.tail ∧
      (0 < nEvent →
        1 ≤ seedings (main 4 true initOk nEvent nAbort colSinglet gen).trace ∧
          1 ≤ attempts (main 4 true initOk nEvent nAbort colSinglet gen).trace) ∧
      (argc ≠ 4 ∨ fileFound = false →
        (main argc fileFound initOk nEvent nAbort colSinglet gen).exitCode = 1 ∧
          (main argc fileFound initOk nEvent nAbort colSinglet gen).trace = []) := by
  refine ⟨by simp [main], ?_, ?_, ?_⟩
  · rw [main_trace, main_trace]
    rfl
  · intro h0
    obtain ⟨m, hm⟩ : ∃ m, nEvent.toNat = m + 1 := ⟨nEvent.toNat - 1, by omega⟩
    have h1 := eventLoop_first_attempt nEvent nAbort colSinglet gen m (entryState []) h0
    have h2 := (eventLoop_accounting nEvent nAbort colSinglet gen (m + 1) (entryState [])).1
    have h3 : attempts (main 4 true initOk nEvent nAbort colSinglet gen).trace =
        attempts (runLoop nEvent nAbort colSinglet gen []).trace := by
      simp [-List.countP_eq_zero, main_trace]
    have h4 : seedings (main 4 true initOk nEvent nAbort colSinglet gen).trace =
        seedings (runLoop nEvent nAbort colSinglet gen []).trace := by
      simp [-List.countP_eq_zero, main_trace]
    have hr : runLoop nEvent nAbort colSinglet gen [] =
        eventLoop nEvent nAbort colSinglet gen (m + 1) (entryState []) := by
      unfold runLoop
      rw [hm]
    have h5 : 0 + 1 ≤
        attempts (eventLoop nEvent nAbort colSinglet gen (m + 1) (entryState [])).trace := h1
    have h6 : seedings (eventLoop nEvent nAbort colSinglet gen (m + 1) (entryState [])).trace + 0 =
        attempts (eventLoop nEvent nAbort colSinglet gen (m + 1) (entryState [])).trace + 0 := h2
    rw [h3, h4, hr]
    omega
  · intro h
    rcases h with h | h
    · simp [main, h]
    · by_cases ha : argc = 4 <;> simp [main, h, ha]

/-- C9, as the code has it, at a run with a target of one event, and at a run
started with three arguments. -/
theorem init_result_not_inspected_witness :
    (1 ≤ seedings (main 4 true false 1 1 true
        (fun _ => Attempt.mk false false ([] : List (Particle Int)))).trace ∧
      1 ≤ attempts (main 4 true false 1 1 true
        (fun _ => Attempt.mk false false ([] : List (Particle Int)))).trace) ∧
    ((main 3 true false 1 1 true
        (fun _ => Attempt.mk false false ([] : List (Particle Int)))).exitCode = 1 ∧
      (main 3 true false 1 1 true
        (fun _ => Attempt.mk false false ([] : List (Particle Int)))).trace = []) :=
  have h := init_result_not_inspected 3 true false 1 1 true
    (fun _ => Attempt.mk false false ([] : List (Particle Int)))
  ⟨h.2.2.1 (by decide), h.2.2.2 (Or.inl (by decide))⟩

/-- C9 as stated fails: when `pythia.init()` returns false, a run with a target
of one event still seeds the event and calls the generator, and the process
exits with code 0. -/
theorem init_result_not_inspected_counterexample :
    (main 4 true false 1 1 true
        (fun _ => Attempt.mk false false ([] : List (Particle Int)))).trace =
      [Action.init false, Action.fillResonance, Action.next false, Action.printAborted,
        Action.close, Action.stat] ∧
    (main 4 true false 1 1 true
        (fun _ => Attempt.mk false false ([] : List (Particle Int)))).exitCode = 0 := by
  decide

/-! ## The per-event conversion object -/

/-- The conversion objects still allocated when the loop has run are those of
the events skipped for an empty final state. -/
theorem eventLoop_liveGenEvents {F : Type} (nEvent nAbort : Int) (colSinglet : Bool)
    (gen : Nat → Attempt F) (fuel : Nat) (s : LoopState F) :
    liveGenEvents (eventLoop nEvent nAbort colSinglet gen fuel s).trace + skips s.trace =
      liveGenEvents s.trace + skips (eventLoop nEvent nAbort colSinglet gen fuel s).trace := by
  refine eventLoop_induction nEvent nAbort colSinglet gen
    (fun _ s r =>
      liveGenEvents r.trace + skips s.trace = liveGenEvents s.trace + skips r.trace)
    ?_ ?_ ?_ ?_ ?_ ?_ ?_ fuel s
  · intro s; omega
  · intro fuel s _; omega
  · intro fuel s _ _ _
    cases colSinglet <;> simp [-List.countP_eq_zero]
  · intro fuel s _ _ _ _
    cases colSinglet <;> simp [-List.countP_eq_zero]
  · intro fuel s r _ _ _ _ ih
    cases colSinglet <;> simp [-List.countP_eq_zero] at ih ⊢ <;> omega
  · intro fuel s r _ _ _ ih
    cases colSinglet <;> simp [-List.countP_eq_zero] at ih ⊢ <;> omega
  · intro fuel s r _ _ _ ih
    cases colSinglet <;> by_cases h1 : s.iEvent < 1 <;>
      simp [-List.countP_eq_zero, h1] at ih ⊢ <;> omega

/-- C6 fails on the code: in a run of two iterations whose events are both
skipped for an empty final state (a single final neutrino each), two conversion
objects are allocated, none is released, and two are live at loop end; the path
that persists the event releases its object. -/
theorem conversion_object_leaks_on_skip :
    liveGenEvents (main 4 true true 2 3 true
        (fun _ => Attempt.mk true false [Particle.mk true 12 (1 : Int) 2 3 4])).trace = 2 ∧
      liveGenEvents (loopBody 3 true
        (fun _ => Attempt.mk true false [Particle.mk true 12 (1 : Int) 2 3 4])
        (entryState [])).2.trace = 1 ∧
      liveGenEvents (loopBody 3 true
        (fun _ => Attempt.mk true false [Particle.mk true 22 (1 : Int) 2 3 4])
        (entryState [])).2.trace = 0 := by
  decide

end P8ptcgen
